import Mathlib

/-!
# Verification development for the request-dispatch core

A shallow embedding of `messages/message.go`, `core.go` and
`validator/validator.go`: the `Message` model with its emptiness test, request
parsing, the dispatch sequence of `handler`, response assembly and the input
field validators.

Modelling conventions

* Go `string` is `String`; Go `int` is `Int` (no arithmetic is performed on
  status codes, so width never matters).
* A Go map or slice that may be `nil` is an `Option` of an association list
  or list: `none` is `nil`, `some []` is an allocated, empty value.
* A pointer or interface that may be `nil` is an `Option`.
* Values are immutable: aliasing of a map between two `Message` copies is not
  modelled.
-/

namespace Core

/-! ## messages/message.go -/

/-- A Go map `map[string][]string` (`http.Header`, `url.Values`). -/
abbrev Values := List (String × List String)

/-- A value stored behind `interface{}` in a body map. The code never looks
inside such a value, so everything that is not a scalar is `other`. -/
inductive GoValue where
  | null : GoValue
  | bool (b : Bool) : GoValue
  | int (n : Int) : GoValue
  | str (s : String) : GoValue
  | other (id : Nat) : GoValue
  deriving DecidableEq, Repr

/-- A Go map `map[string]interface{}`. -/
abbrev Body := List (String × GoValue)

/-- The target of a `*multipart.Form`; only its presence is ever tested. -/
structure Form where
  id : Nat
  deriving DecidableEq, Repr

/-- An `io.ReadCloser`: the bytes that can still be read from it. -/
structure ReadCloser where
  unread : List Nat
  deriving DecidableEq, Repr

/-- The struct `messages.Message`, field for field. -/
structure Message where
  Rid : Int
  Res : String
  Command : String
  Headers : Option Values
  Parameters : Option Values
  MultipartForm : Option Form
  Body : Option Body
  RawBody : Option (List Nat)
  ReqBodyRaw : Option ReadCloser
  Status : Int
  deriving DecidableEq, Repr

/-- The zero value of `Message` (what `var m messages.Message` holds). -/
def Message.zero : Message :=
  { Rid := 0, Res := "", Command := "", Headers := none, Parameters := none,
    MultipartForm := none, Body := none, RawBody := none, ReqBodyRaw := none,
    Status := 0 }

/-- Go `len` of a slice or map that may be nil: a nil one has length 0. -/
def goLen {α : Type} : Option (List α) → Nat
  | none => 0
  | some xs => xs.length

/-- `func (m *Message) IsEmpty() bool`. -/
def Message.IsEmpty (m : Message) : Bool :=
  m.Status == 0 && m.Res.length == 0 && m.Command.length == 0 &&
    m.Headers.isNone && m.Parameters.isNone && m.MultipartForm.isNone &&
    m.Body.isNone && goLen m.RawBody == 0 && m.ReqBodyRaw.isNone

/-- The struct `messages.RequestWrapper`; the `Listener` channel is never
touched by the code modelled here and is kept as a presence flag. -/
structure RequestWrapper where
  Message : Message
  Listener : Option Nat
  deriving DecidableEq, Repr

/-- The zero value of `RequestWrapper`. -/
def RequestWrapper.zero : RequestWrapper :=
  { Message := Message.zero, Listener := none }

/-! ## core.go: request parsing -/

/-- The struct `utils.Error`, built in the source by the positional literal
`utils.Error{code, message}` and read through `.Code` and `.Message`. -/
structure Error where
  Code : Int
  Message : String
  deriving DecidableEq, Repr

/-- `http.StatusBadRequest`. -/
def StatusBadRequest : Int := 400

/-- `http.StatusInternalServerError`. -/
def StatusInternalServerError : Int := 500

/-- The parts of `*http.Request` that `parseRequest` reads: `r.Method`,
`r.URL.Path`, `r.Header`, the result of `r.URL.Query()` (always an allocated
map) and `r.Body`, which is `none` when the request has no body stream. -/
structure Request where
  Method : String
  Path : String
  Header : Option Values
  Query : Values
  Body : Option ReadCloser
  deriving DecidableEq, Repr

/-- `strings.TrimRight(s, cutset)`: drop every trailing character of `s` that
occurs in `cutset`. -/
def TrimRight (s cutset : String) : String :=
  ⟨s.data.rdropWhile (fun c => cutset.data.contains c)⟩

/-- `strings.EqualFold(s, t)`: equality up to letter case (ASCII folding; the
code only ever compares with the empty string). -/
def EqualFold (s t : String) : Bool :=
  s.data.map Char.toLower == t.data.map Char.toLower

/-- `strings.ToLower(s)` (ASCII letters; request methods are ASCII tokens). -/
def ToLower (s : String) : String :=
  ⟨s.data.map Char.toLower⟩

/-- Search loop of `strings.Index`: position of the first occurrence of `sub`
at or after offset `i`, or `-1`. -/
def indexFrom (sub : List Char) : List Char → Nat → Int
  | [], i => if sub.isEmpty then (i : Int) else -1
  | c :: cs, i => if sub.isPrefixOf (c :: cs) then (i : Int) else indexFrom sub cs (i + 1)

/-- `strings.Index(s, substr)`, counted in characters. -/
def Index (s substr : String) : Int :=
  indexFrom substr.data s.data 0

/-- What `json.NewDecoder(body).Decode(&m.Body)` does: it succeeds and stores a
map (a nil map for the JSON text `null`), or it reports `io.EOF` and leaves
the target alone, or it reports another error, `left` being what the target
holds afterwards. -/
inductive DecodeResult where
  | ok (body : Option Body) : DecodeResult
  | eof : DecodeResult
  | failed (left : Option Body) : DecodeResult
  deriving DecidableEq, Repr

/-- The white space of JSON as `encoding/json` skips it: space, tab, carriage
return, line feed. -/
def isSpace (c : Nat) : Bool :=
  c == 32 || c == 9 || c == 13 || c == 10

/-- The outline of `json.NewDecoder(body).Decode(&m.Body)` with a map as
target, over the bytes of the payload. White space is skipped; when nothing
else comes the decoder reports `io.EOF` (on an empty payload and on one of
white space only). A first byte other than `{` (123) or `n` (110) cannot open
an object or `null`: the decoder reports a syntax error or a type mismatch and
leaves the target alone. Otherwise `unmarshal`, the grammar and value
conversion of the library, decides: its second component says whether the
first value was accepted, its first what the target holds afterwards. Bytes
after the first value are not looked at. -/
def decodeJSON (unmarshal : List Nat → Option Body × Bool) (stream : ReadCloser) :
    DecodeResult :=
  match (stream.unread.dropWhile isSpace).head? with
  | none => DecodeResult.eof
  | some c =>
    if c == 123 || c == 110 then
      if (unmarshal stream.unread).2 then DecodeResult.ok (unmarshal stream.unread).1
      else DecodeResult.failed (unmarshal stream.unread).1
    else DecodeResult.failed none

/-- What the code takes from outside the repository sources at hand: the
constant `constants.ResourceTypeFiles`, the JSON decoder and encoder of the
standard library, and the canonical form of a header key used by
`http.Header.Set`. -/
structure Lib where
  ResourceTypeFiles : String
  decode : ReadCloser → DecodeResult
  marshal : Body → Option String
  canonicalKey : String → String

/-- `func parseRequest(r *http.Request) (requestWrapper, err)`. The result is
`none` when the call panics: with `r.Body == nil` outside the file branch the
decoder reads from a nil reader. -/
def parseRequest (lib : Lib) (r : Request) : Option (RequestWrapper × Option Error) :=
  let requestWrapper := RequestWrapper.zero
  let res := TrimRight r.Path "/"
  if EqualFold res "" then
    some (requestWrapper,
      some ⟨StatusBadRequest, "Root path \x27/\x27 cannot be requested directly. "⟩)
  else
    let requestWrapper : RequestWrapper :=
      { requestWrapper with
        Message :=
          { requestWrapper.Message with
            Res := res, Command := ToLower r.Method, Headers := r.Header,
            Parameters := some r.Query } }
    if Index res lib.ResourceTypeFiles == 0 then
      match r.Body with
      | none =>
        some (requestWrapper,
          some ⟨StatusBadRequest, "Request body cannot be empty for create file requests."⟩)
      | some stream =>
        some ({ requestWrapper with
                Message := { requestWrapper.Message with ReqBodyRaw := some stream } }, none)
    else
      match r.Body with
      | none => none
      | some stream =>
        match lib.decode stream with
        | DecodeResult.ok body =>
          some ({ requestWrapper with
                  Message := { requestWrapper.Message with Body := body } }, none)
        | DecodeResult.eof => some (requestWrapper, none)
        | DecodeResult.failed left =>
          some ({ requestWrapper with
                  Message := { requestWrapper.Message with Body := left } },
            some ⟨StatusBadRequest, "Request body is not a valid json."⟩)

/-! ## core.go: the response writer -/

/-- One write on the response body: raw bytes (`w.Write`) or a string
(`io.WriteString`). -/
inductive Chunk where
  | bytes (b : List Nat) : Chunk
  | text (s : String) : Chunk
  deriving DecidableEq, Repr

/-- The state of the `http.ResponseWriter` that the net/http server hands to
`handler`: the header map handed out by `w.Header()`, whether the status line
has gone out, the status and the header map that went out with it, the chunks
handed to `Write` so far (the server drops them for a HEAD request and under
a status that allows no body), and the informational status codes sent ahead
of the status line. -/
structure ResponseWriter where
  header : Values
  wroteHeader : Bool
  status : Int
  sentHeader : Values
  body : List Chunk
  informational : List Int := []
  deriving DecidableEq, Repr

/-- A writer on which nothing has been done yet. -/
def ResponseWriter.fresh : ResponseWriter :=
  { header := [], wroteHeader := false, status := 0, sentHeader := [], body := [] }

/-- `w.Header().Set(key, value)`: the canonical key is bound to the single
value, replacing what was there. -/
def ResponseWriter.Set (lib : Lib) (w : ResponseWriter) (key value : String) : ResponseWriter :=
  { w with
    header := (lib.canonicalKey key, [value]) ::
      w.header.filter (fun p => p.1 != lib.canonicalKey key) }

/-- `w.WriteHeader(code)` on the server's writer; `none` when it panics. Once
the status line has gone out a call changes nothing. Before that, a code
outside 100..999 panics; a code in 100..199 other than 101 goes out as an
informational response and leaves the status line still to be sent; any
other code goes out as the status line, with the headers as they are then. -/
def ResponseWriter.WriteHeader (w : ResponseWriter) (code : Int) : Option ResponseWriter :=
  if w.wroteHeader then some w
  else if code < 100 ∨ 999 < code then none
  else if 100 ≤ code ∧ code ≤ 199 ∧ code ≠ 101 then
    some { w with informational := w.informational ++ [code] }
  else some { w with wroteHeader := true, status := code, sentHeader := w.header }

/-- `w.Write` and `io.WriteString(w, _)`: a write before the status line
has gone out sends status 200 first. -/
def ResponseWriter.Write (w : ResponseWriter) (c : Chunk) : ResponseWriter :=
  if w.wroteHeader then { w with body := w.body ++ [c] }
  else { w with wroteHeader := true, status := 200, sentHeader := w.header,
                body := w.body ++ [c] }

/-- The header map behind the answer: the one that went out with the status
line, or, when the handler returns without any write, the header map as it
stands then. (Under status 304 the server withholds `Content-Type` from what
it transmits; the theorems on the content type leave that status out.) -/
def ResponseWriter.wireHeader (w : ResponseWriter) : Values :=
  if w.wroteHeader then w.sentHeader else w.header

/-- `http.Error(w, error, code)`; `none` when `WriteHeader` panics. -/
def httpError (lib : Lib) (w : ResponseWriter) (error : String) (code : Int) :
    Option ResponseWriter :=
  let w1 := w.Set lib "Content-Type" "text/plain; charset=utf-8"
  let w2 := w1.Set lib "X-Content-Type-Options" "nosniff"
  match w2.WriteHeader code with
  | none => none
  | some w3 => some (w3.Write (Chunk.text (error ++ "\n")))

/-- The loop `for k, v := range response.Headers { w.Header().Set(k, v[0]) }`,
in list order; `none` when `v[0]` panics on an empty value list. -/
def copyHeaders (lib : Lib) : Values → ResponseWriter → Option ResponseWriter
  | [], w => some w
  | (_, []) :: _, _ => none
  | (k, v0 :: _) :: rest, w => copyHeaders lib rest (w.Set lib k v0)

/-- The block `if err != nil { ... }` of `buildResponse`: status and body
taken from the error where the response has none. -/
def applyError (response : Message) : Option Error → Message
  | none => response
  | some e =>
    let r1 := if response.Status == 0 then { response with Status := e.Code } else response
    if r1.Body.isNone then
      { r1 with Body := some [("code", GoValue.int e.Code), ("message", GoValue.str e.Message)] }
    else r1

/-- `func buildResponse(w, response, err)`; `none` when it panics (in the
header loop or in `WriteHeader`). Log lines are not modelled. -/
def buildResponse (lib : Lib) (w : ResponseWriter) (response : Message)
    (err : Option Error) : Option ResponseWriter :=
  let w1 := w.Set lib "Content-Type" "application/json; charset=utf-8"
  match copyHeaders lib (response.Headers.getD []) w1 with
  | none => none
  | some w2 =>
    let response := applyError response err
    match (if response.Status != 0 then w2.WriteHeader response.Status else some w2) with
    | none => none
    | some w3 =>
      let w4 :=
        match response.RawBody with
        | none => w3
        | some raw => w3.Write (Chunk.bytes raw)
      match response.Body with
      | none => some w4
      | some body =>
        match lib.marshal body with
        | some bytes => some (w4.Write (Chunk.text bytes))
        | none =>
          match httpError lib w4 "Internal server error" StatusInternalServerError with
          | none => none
          | some w5 => some (w5.Write (Chunk.text ""))

/-- `func printError(w, err)`; `none` when `WriteHeader` panics. Log lines are
not modelled. -/
def printError (lib : Lib) (w : ResponseWriter) (err : Error) : Option ResponseWriter :=
  match lib.marshal [("message", GoValue.str err.Message)] with
  | some bytes =>
    match w.WriteHeader err.Code with
    | none => none
    | some w1 => some (w1.Write (Chunk.text bytes))
  | none =>
    match httpError lib w "Internal server error" StatusInternalServerError with
    | none => none
    | some w1 =>
      match w1.WriteHeader err.Code with
      | none => none
      | some w2 => some (w2.Write (Chunk.text ""))

/-! ## core.go: the dispatch sequence -/

/-- `interceptors.InterceptorType`, with the three values the handler uses. -/
inductive InterceptorType where
  | BEFORE_EXEC : InterceptorType
  | AFTER_EXEC : InterceptorType
  | FINAL : InterceptorType
  deriving DecidableEq, Repr

/-- The four results of `interceptors.ExecuteInterceptors`. -/
structure PhaseResult (S : Type) where
  editedRequest : Message
  editedResponse : Message
  editedRequestScope : S
  err : Option Error

/-- The three results of `functions.ExecuteFunction` and of
`requesthandler.HandleRequest`. -/
structure ExecResult (S : Type) where
  response : Message
  editedRequestScope : S
  err : Option Error

/-- The packages the handler calls into, over a request scope type `S` and a
state `W` of everything those packages may read and change. -/
structure Env (S W : Type) where
  Init : W → S × W
  ScopeIsEmpty : S → Bool
  ExecuteInterceptors :
    String → String → InterceptorType → S → Message → Message → W → PhaseResult S × W
  ContainsHandler : String → W → Bool
  ExecuteFunction : Message → S → W → ExecResult S × W
  HandleRequest : Message → S → W → ExecResult S × W

/-- A call the handler makes, with the arguments it passes. `spawned` is the
`go` statement: its arguments are evaluated on the spot, the call itself runs
on its own and its results are dropped. -/
inductive Call (S : Type) where
  | interceptors (t : InterceptorType) (res command : String) (scope : S)
      (request response : Message) : Call S
  | spawned (t : InterceptorType) (res command : String) (scope : S)
      (request response : Message) : Call S
  | executeFunction (request : Message) (scope : S) : Call S
  | handleRequest (request : Message) (scope : S) : Call S
  | buildResponse (response : Message) (err : Option Error) : Call S
  | printError (err : Error) : Call S
  deriving DecidableEq

/-- Is the call an invocation of the custom or of the generic handler? -/
def Call.isHandler {S : Type} : Call S → Bool
  | Call.executeFunction _ _ => true
  | Call.handleRequest _ _ => true
  | _ => false

/-- The local variables of `handler` at line 123, after the BEFORE_EXEC
branch, with the calls made so far. -/
structure Locals (S W : Type) where
  request : Message
  response : Message
  requestScope : S
  editedRequestScope : S
  err : Option Error
  world : W
  calls : List (Call S)

/-- What one run of `handler` leaves behind: the calls in order, the outside
state, and the response writer (`none` when the run panicked). -/
structure HandlerResult (S W : Type) where
  calls : List (Call S)
  world : W
  writer : Option ResponseWriter

/-- Lines 94 to 100 of `handler`: the BEFORE_EXEC phase, run on the parsed
request, the empty response and the scope from `requestscope.Init()`. -/
def beforePhase {S W : Type} (env : Env S W) (requestWrapper : RequestWrapper) (σ : W) :
    PhaseResult S × W :=
  env.ExecuteInterceptors requestWrapper.Message.Res requestWrapper.Message.Command
    InterceptorType.BEFORE_EXEC (env.Init σ).1 requestWrapper.Message Message.zero (env.Init σ).2

/-- Lines 93 to 122 of `handler`: scope initialisation, the BEFORE_EXEC phase
and the choice between skipping and invoking a handler. -/
def dispatch {S W : Type} (env : Env S W) (requestWrapper : RequestWrapper) (σ : W) :
    Locals S W :=
  let request := requestWrapper.Message
  let requestScope := (env.Init σ).1
  let response := Message.zero
  let c1 := Call.interceptors InterceptorType.BEFORE_EXEC request.Res request.Command
    requestScope request response
  let b := beforePhase env requestWrapper σ
  if !b.1.editedResponse.IsEmpty then
    { request := request, response := b.1.editedResponse, requestScope := requestScope,
      editedRequestScope := b.1.editedRequestScope, err := b.1.err, world := b.2,
      calls := [c1] }
  else if b.1.err.isNone then
    let request := if !b.1.editedRequest.IsEmpty then b.1.editedRequest else request
    let requestScope :=
      if !env.ScopeIsEmpty b.1.editedRequestScope then b.1.editedRequestScope else requestScope
    let requestWrapper := { requestWrapper with Message := request }
    if env.ContainsHandler request.Res b.2 then
      let h := env.ExecuteFunction request requestScope b.2
      { request := request, response := h.1.response, requestScope := requestScope,
        editedRequestScope := h.1.editedRequestScope, err := h.1.err, world := h.2,
        calls := [c1, Call.executeFunction request requestScope] }
    else
      let h := env.HandleRequest requestWrapper.Message requestScope b.2
      { request := request, response := h.1.response, requestScope := requestScope,
        editedRequestScope := h.1.editedRequestScope, err := h.1.err, world := h.2,
        calls := [c1, Call.handleRequest requestWrapper.Message requestScope] }
  else
    { request := request, response := response, requestScope := requestScope,
      editedRequestScope := b.1.editedRequestScope, err := b.1.err, world := b.2,
      calls := [c1] }

/-- Lines 124 to 127 of `handler`: the scope handed to the AFTER_EXEC phase. -/
def afterScope {S W : Type} (env : Env S W) (st : Locals S W) : S :=
  if !env.ScopeIsEmpty st.editedRequestScope then st.editedRequestScope else st.requestScope

/-- Line 129 of `handler`: the AFTER_EXEC phase, run on the current request,
response and scope. -/
def afterPhase {S W : Type} (env : Env S W) (st : Locals S W) : PhaseResult S × W :=
  env.ExecuteInterceptors st.request.Res st.request.Command InterceptorType.AFTER_EXEC
    (afterScope env st) st.request st.response st.world

/-- Lines 124 to 144 of `handler`: the AFTER_EXEC phase, the `go` statement for
FINAL and the call of `buildResponse`. The first result of the phase is
assigned to the blank identifier, the fourth to `err`. -/
def finish {S W : Type} (env : Env S W) (lib : Lib) (w : ResponseWriter) (st : Locals S W) :
    HandlerResult S W :=
  let a := afterPhase env st
  let response := if !a.1.editedResponse.IsEmpty then a.1.editedResponse else st.response
  let requestScope :=
    if !env.ScopeIsEmpty a.1.editedRequestScope then a.1.editedRequestScope
    else afterScope env st
  let err := a.1.err
  { calls := st.calls ++
      [Call.interceptors InterceptorType.AFTER_EXEC st.request.Res st.request.Command
        (afterScope env st) st.request st.response,
       Call.spawned InterceptorType.FINAL st.request.Res st.request.Command requestScope
        st.request response,
       Call.buildResponse response err],
    world := a.2,
    writer := buildResponse lib w response err }

/-- The environment `env` with the edited request that its AFTER_EXEC phase
returns replaced by `g`; everything else is as in `env`. -/
def withAfterEdit {S W : Type} (env : Env S W) (g : Message) : Env S W :=
  { env with
    ExecuteInterceptors := fun res command t scope request response σ =>
      let out := env.ExecuteInterceptors res command t scope request response σ
      if t = InterceptorType.AFTER_EXEC then ({ out.1 with editedRequest := g }, out.2)
      else out }

/-- `func handler(w http.ResponseWriter, r *http.Request)`. -/
def handler {S W : Type} (env : Env S W) (lib : Lib) (w : ResponseWriter) (r : Request)
    (σ : W) : HandlerResult S W :=
  match parseRequest lib r with
  | none => { calls := [], world := σ, writer := none }
  | some (_, some parseReqErr) =>
    { calls := [Call.printError parseReqErr], world := σ,
      writer := printError lib w parseReqErr }
  | some (requestWrapper, none) => finish env lib w (dispatch env requestWrapper σ)

/-! ## The interceptor phase executor -/

/-- Modelled from the spec: an interceptor (section 3), which takes the scope,
the request and the response so far and returns an edited request, an edited
response, an edited scope and an error. The package `interceptors` is not
among the sources at hand. -/
abbrev Interceptor (S : Type) := S → Message → Message → PhaseResult S

/-- Modelled from the spec: steps 2 to 4 of the phase executor (section 4.2),
the package `interceptors` being absent from the sources at hand. The
interceptors run in order on the running scope, request and response; one
that returns a non-empty response or an error stops the chain; non-empty
edits of request and scope are folded into the running values and kept as
the edits to return. -/
def runChain {S : Type} (scopeIsEmpty : S → Bool) :
    List (Interceptor S) → S → Message → Message → Message → S → PhaseResult S
  | [], _, _, _, editedRequest, editedScope =>
    { editedRequest := editedRequest, editedResponse := Message.zero,
      editedRequestScope := editedScope, err := none }
  | i :: rest, scope, request, response, editedRequest, editedScope =>
    let out := i scope request response
    let editedRequest := if !out.editedRequest.IsEmpty then out.editedRequest else editedRequest
    let editedScope :=
      if !scopeIsEmpty out.editedRequestScope then out.editedRequestScope else editedScope
    if !out.editedResponse.IsEmpty || out.err.isSome then
      { editedRequest := editedRequest, editedResponse := out.editedResponse,
        editedRequestScope := editedScope, err := out.err }
    else
      runChain scopeIsEmpty rest
        (if !scopeIsEmpty out.editedRequestScope then out.editedRequestScope else scope)
        (if !out.editedRequest.IsEmpty then out.editedRequest else request)
        response editedRequest editedScope

/-- Modelled from the spec: `interceptors.ExecuteInterceptors` as the phase
executor of section 4.2, the package `interceptors` being absent from the
sources at hand. `resolve` is the registry lookup of section 4.1 and
`emptyScope` the empty scope; an empty list gives all-empty results and no
error. -/
def runPhase {S : Type} (scopeIsEmpty : S → Bool) (emptyScope : S)
    (resolve : String → String → InterceptorType → List (Interceptor S))
    (res command : String) (t : InterceptorType) (scope : S) (request response : Message) :
    PhaseResult S :=
  runChain scopeIsEmpty (resolve res command t) scope request response Message.zero emptyScope

/-! ## validator/validator.go -/

/-- A Go map `map[string]bool`, the field map of the validators; the nil map
and the empty map behave alike under `range` and lookup and are both `[]`. -/
abbrev FieldMap := List (String × Bool)

/-- The second result of the lookup `_, ok := data[key]` on a body map that
may be nil. -/
def containsField (data : Option Body) (key : String) : Bool :=
  match data with
  | none => false
  | some entries => entries.any (fun p => p.1 == key)

/-- The second result of the lookup `_, ok := fields[key]` on a field map. -/
def containsKeyInFields (fields : FieldMap) (key : String) : Bool :=
  fields.any (fun p => p.1 == key)

/-- `ValidateInputFields(fields, data)`: the loop over the field map, in list
order (Go ranges over a map in no fixed order; each order is some list). The
first key whose presence in `data` differs from its flag ends the loop with
an error. -/
def ValidateInputFields : FieldMap → Option Body → Option Error
  | [], _ => none
  | (key, shouldContain) :: rest, data =>
    if containsField data key != shouldContain then
      if shouldContain then
        some ⟨StatusBadRequest, "Input must contain \x27" ++ key ++ "\x27 field."⟩
      else
        some ⟨StatusBadRequest, "Input cannot contain \x27" ++ key ++ "\x27 field."⟩
    else ValidateInputFields rest data

/-- The second loop of `ValidateExactInputFields`, over the entries of `data`:
a key that the field map does not have sets `err`; the loop goes on. -/
def unexpectedFields (fields : FieldMap) : Body → Option Error → Option Error
  | [], err => err
  | (key, _) :: rest, err =>
    if !containsKeyInFields fields key then
      unexpectedFields fields rest
        (some ⟨StatusBadRequest, "Unexpected field \x27" ++ key ++ "\x27."⟩)
    else unexpectedFields fields rest err

/-- `ValidateExactInputFields(fields, data)`. -/
def ValidateExactInputFields (fields : FieldMap) (data : Option Body) : Option Error :=
  match ValidateInputFields fields data with
  | some err => some err
  | none => unexpectedFields fields (data.getD []) none

/-- The dynamic value of an `extras interface{}` argument: the nil interface,
a field map, or a value of another type. -/
inductive Extras where
  | nil : Extras
  | fieldMap (fields : FieldMap) : Extras
  | other (id : Nat) : Extras

/-- The type assertion `extras.(map[string]bool)` in its one-result form:
`none` when it panics, which it does on the nil interface and on a value of
another type. -/
def Extras.assertFieldMap : Extras → Option FieldMap
  | Extras.fieldMap fields => some fields
  | _ => none

/-- The statement `if extras == nil { err = &utils.Error{...} }` that opens both
validators: the value `err` holds after it. -/
def nilExtrasError : Extras → Option Error
  | Extras.nil =>
    some ⟨StatusInternalServerError,
      "Input field validator expects \x27extras\x27 to be the expected/unexcpected field map, not nil."⟩
  | _ => none

/-- `InputFieldValidator(requestScope, extras, request, response)`; `none` when
it panics. `zeroScope` is the zero value of `requestscope.RequestScope`, which
the named result `editedRequestScope` holds. The error assigned under
`extras == nil` is not followed by a return: the type assertion on the next
line runs, and the assignment on that line overwrites `err`. -/
def InputFieldValidator {S : Type} (zeroScope : S) (_requestScope : S) (extras : Extras)
    (request _response : Message) : Option (PhaseResult S) :=
  let _err := nilExtrasError extras
  match extras.assertFieldMap with
  | none => none
  | some fields =>
    let _err := ValidateInputFields fields request.Body
    some { editedRequest := Message.zero, editedResponse := Message.zero,
           editedRequestScope := zeroScope, err := _err }

/-- `ExactInputFieldValidator(requestScope, extras, request, response)`; `none`
when it panics, as for `InputFieldValidator`. -/
def ExactInputFieldValidator {S : Type} (zeroScope : S) (_requestScope : S) (extras : Extras)
    (request _response : Message) : Option (PhaseResult S) :=
  let _err := nilExtrasError extras
  match extras.assertFieldMap with
  | none => none
  | some fields =>
    let _err := ValidateExactInputFields fields request.Body
    some { editedRequest := Message.zero, editedResponse := Message.zero,
           editedRequestScope := zeroScope, err := _err }

/-! ## Concrete inputs -/

/-- A stand-in for the object grammar of the decoder in concrete runs: it
accepts the two bytes of an empty object and nothing else. -/
def sampleUnmarshal (payload : List Nat) : Option Body × Bool :=
  if payload == [123, 125] then (some [], true) else (none, false)

/-- A library instance for concrete runs: the file prefix `/files`, the
decoder outline over `sampleUnmarshal`, an encoder that lists the keys, and
header keys already canonical. -/
def sampleLib : Lib :=
  { ResourceTypeFiles := "/files",
    decode := decodeJSON sampleUnmarshal,
    marshal := fun body => some (String.intercalate "," (body.map Prod.fst)),
    canonicalKey := fun k => k }

/-- The request `POST /widgets` with an empty body stream. -/
def postWidgets : Request :=
  { Method := "POST", Path := "/widgets", Header := some [], Query := [],
    Body := some { unread := [] } }

/-- The request `GET ///`, whose path trims to the root. -/
def getRoot : Request :=
  { Method := "GET", Path := "///", Header := some [], Query := [], Body := some { unread := [] } }

/-- The request `POST /widgets` with the one-byte payload `{`. -/
def postWidgetsBroken : Request :=
  { Method := "POST", Path := "/widgets", Header := some [], Query := [],
    Body := some { unread := [123] } }

/-- The request `POST /widgets` whose payload is one space. -/
def postWidgetsBlank : Request :=
  { Method := "POST", Path := "/widgets", Header := some [], Query := [],
    Body := some { unread := [32] } }

/-- The request `POST /widgets` with the payload `<a>`. -/
def postWidgetsMarkup : Request :=
  { Method := "POST", Path := "/widgets", Header := some [], Query := [],
    Body := some { unread := [60, 97, 62] } }

/-- The request `POST /files/abc` without a body stream. -/
def postFileNoBody : Request :=
  { Method := "POST", Path := "/files/abc", Header := some [], Query := [], Body := none }

/-- The request `POST /files/abc` with a body stream of three bytes. -/
def postFile : Request :=
  { Method := "POST", Path := "/files/abc", Header := some [], Query := [],
    Body := some { unread := [1, 2, 3] } }

/-- A response with status 403 and the body `reason: blocked`. -/
def blockedResponse : Message :=
  { Message.zero with Status := 403, Body := some [("reason", GoValue.str "blocked")] }

/-- An environment whose phases are the phase executor over the registry
`resolve`, with scopes and outside state as numbers (scope 0 is the empty
scope): `custom` tells which resources have a custom handler; either handler
answers with status 200 and counts its invocation in the outside state. -/
def registryEnv (resolve : String → String → InterceptorType → List (Interceptor Nat))
    (custom : String → Bool) : Env Nat Nat :=
  { Init := fun σ => (0, σ),
    ScopeIsEmpty := fun s => s == 0,
    ExecuteInterceptors := fun res command t scope request response σ =>
      (runPhase (fun s => s == 0) 0 resolve res command t scope request response, σ),
    ContainsHandler := fun res _ => custom res,
    ExecuteFunction := fun _ scope σ =>
      ({ response := { Message.zero with Status := 200 }, editedRequestScope := scope,
         err := none }, σ + 1),
    HandleRequest := fun _ _ σ =>
      ({ response := { Message.zero with Status := 200 }, editedRequestScope := 0,
         err := none }, σ + 1) }

/-- A registry with one interceptor, on `(/widgets, post, BEFORE_EXEC)`, that
answers with `blockedResponse`. -/
def blockingRegistry : String → String → InterceptorType → List (Interceptor Nat) :=
  fun res command t =>
    if res == "/widgets" && command == "post" && t == InterceptorType.BEFORE_EXEC then
      [fun _ _ _ =>
        { editedRequest := Message.zero, editedResponse := blockedResponse,
          editedRequestScope := 0, err := none }]
    else []

/-- A registry with one interceptor, on `(/widgets, post, BEFORE_EXEC)`, that
fails with the error 401 `Unauthorized`; no AFTER_EXEC interceptor is
registered. -/
def rejectingRegistry : String → String → InterceptorType → List (Interceptor Nat) :=
  fun res command t =>
    if res == "/widgets" && command == "post" && t == InterceptorType.BEFORE_EXEC then
      [fun _ _ _ =>
        { editedRequest := Message.zero, editedResponse := Message.zero,
          editedRequestScope := 0, err := some { Code := 401, Message := "Unauthorized" } }]
    else []

/-- A registry without interceptors. -/
def emptyRegistry : String → String → InterceptorType → List (Interceptor Nat) :=
  fun _ _ _ => []

/-- The request `POST /files/abc` with a body stream that carries no bytes
(what a server request without payload holds, its body never being nil). -/
def postFileEmpty : Request :=
  { Method := "POST", Path := "/files/abc", Header := some [], Query := [],
    Body := some { unread := [] } }

/-- A response with status 404 and one header, `X-Trace`, bound to an empty
list of values. -/
def danglingHeaderResponse : Message :=
  { Message.zero with Status := 404, Headers := some [("X-Trace", [])] }

/-- A response with status 200, the raw body `<p>` and its own `Content-Type`
header. -/
def htmlResponse : Message :=
  { Message.zero with
    Status := 200, Headers := some [("Content-Type", ["text/html"])],
    RawBody := some [60, 112, 62] }

/-- A field map that asks for `name` and forbids `id`. -/
def sampleFields : FieldMap := [("name", true), ("id", false)]

/-- A body with the fields `name` and `zip`. -/
def nameZipBody : Option Body :=
  some [("name", GoValue.str "x"), ("zip", GoValue.int 1)]

/-- The name under which `tracingEnv` records a phase. -/
def phaseName : InterceptorType → String
  | InterceptorType.BEFORE_EXEC => "before"
  | InterceptorType.AFTER_EXEC => "after"
  | InterceptorType.FINAL => "final"

/-- An environment like `registryEnv` whose outside state is the record, kept
by the environment itself, of what was executed: each phase run appends its
name, the custom handler appends `custom`, the generic handler `generic`. -/
def tracingEnv (resolve : String → String → InterceptorType → List (Interceptor Nat))
    (custom : String → Bool) : Env Nat (List String) :=
  { Init := fun σ => (0, σ),
    ScopeIsEmpty := fun s => s == 0,
    ExecuteInterceptors := fun res command t scope request response σ =>
      (runPhase (fun s => s == 0) 0 resolve res command t scope request response,
        σ ++ [phaseName t]),
    ContainsHandler := fun res _ => custom res,
    ExecuteFunction := fun _ scope σ =>
      ({ response := { Message.zero with Status := 200 }, editedRequestScope := scope,
         err := none }, σ ++ ["custom"]),
    HandleRequest := fun _ _ σ =>
      ({ response := { Message.zero with Status := 200 }, editedRequestScope := 0,
         err := none }, σ ++ ["generic"]) }

/-- A registry with two interceptors on `(/widgets, post)`: the BEFORE_EXEC one
fails with 401 `Unauthorized`, the AFTER_EXEC one fails with 503
`Unavailable`. -/
def failingRegistry : String → String → InterceptorType → List (Interceptor Nat) :=
  fun res command t =>
    if res == "/widgets" && command == "post" && t == InterceptorType.BEFORE_EXEC then
      [fun _ _ _ =>
        { editedRequest := Message.zero, editedResponse := Message.zero,
          editedRequestScope := 0, err := some { Code := 401, Message := "Unauthorized" } }]
    else if res == "/widgets" && command == "post" && t == InterceptorType.AFTER_EXEC then
      [fun _ _ _ =>
        { editedRequest := Message.zero, editedResponse := Message.zero,
          editedRequestScope := 0, err := some { Code := 503, Message := "Unavailable" } }]
    else []

/-- A registry with one interceptor, on `(/widgets, post, AFTER_EXEC)`, that
answers with the response it is given, its status raised by 2, and sets the
scope to 7. -/
def stampingRegistry : String → String → InterceptorType → List (Interceptor Nat) :=
  fun res command t =>
    if res == "/widgets" && command == "post" && t == InterceptorType.AFTER_EXEC then
      [fun _ _ response =>
        { editedRequest := Message.zero,
          editedResponse := { response with Status := response.Status + 2 },
          editedRequestScope := 7, err := none }]
    else []

/-- The interceptors of `blockingRegistry` and of `stampingRegistry` together:
on `(/widgets, post)` the BEFORE_EXEC phase answers with `blockedResponse` and
the AFTER_EXEC phase raises the status of the response by 2. -/
def blockingStampingRegistry : String → String → InterceptorType → List (Interceptor Nat) :=
  fun res command t => blockingRegistry res command t ++ stampingRegistry res command t

/-! ## Theorems about `Message.IsEmpty` -/

theorem string_length_eq_zero (s : String) : s.length = 0 ↔ s = "" := by
  constructor
  · intro h
    have h2 : s.data = [] := List.length_eq_zero.mp h
    exact String.ext h2
  · intro h
    subst h
    rfl

theorem isEmpty_iff_fields_aux (m : Message) :
    m.IsEmpty = true ↔
      (m.Status = 0 ∧ m.Res = "" ∧ m.Command = "" ∧ m.Headers = none ∧
        m.Parameters = none ∧ m.MultipartForm = none ∧ m.Body = none ∧
        goLen m.RawBody = 0 ∧ m.ReqBodyRaw = none) := by
  simp only [Message.IsEmpty, Bool.and_eq_true, beq_iff_eq, Option.isNone_iff_eq_none,
    string_length_eq_zero]
  tauto

/-- C1: `IsEmpty` is true exactly when Status is 0, Res and Command are empty
strings, Headers, Parameters, MultipartForm and Body are nil, RawBody has
length 0 and ReqBodyRaw is nil. -/
theorem isEmpty_iff_fields (m : Message) :
    m.IsEmpty = true ↔
      (m.Status = 0 ∧ m.Res = "" ∧ m.Command = "" ∧ m.Headers = none ∧
        m.Parameters = none ∧ m.MultipartForm = none ∧ m.Body = none ∧
        goLen m.RawBody = 0 ∧ m.ReqBodyRaw = none) :=
  isEmpty_iff_fields_aux m

/-- C2, as stated, fails: a message whose only non-zero field is Rid is
reported empty although it is not the zero message. -/
theorem isEmpty_not_only_zero :
    ¬ (({ Message.zero with Rid := 7 } : Message).IsEmpty = true ↔
        ({ Message.zero with Rid := 7 } : Message) = Message.zero) := by
  decide

/-- C2, amended: `IsEmpty` is true exactly when every field other than Rid is
at its zero value, RawBody counting as absent when its length is 0 (nil or
allocated and empty); Rid is not examined. -/
theorem isEmpty_iff_zero_up_to_rid (m : Message) :
    m.IsEmpty = true ↔
      ({ m with Rid := 0, RawBody := none } = Message.zero ∧ goLen m.RawBody = 0) := by
  rw [isEmpty_iff_fields_aux]
  obtain ⟨rid, res, cmd, hd, pr, mf, bd, rb, rq, st⟩ := m
  simp only [Message.zero, Message.mk.injEq, true_and]
  tauto

/-! ## Theorems about `handler` -/

/-- C3: when the request parses and the BEFORE_EXEC phase returns a non-empty
response, no call of the custom or of the generic handler is made, whatever
else the phase returned. -/
theorem before_response_skips_handlers {S W : Type} (env : Env S W) (lib : Lib)
    (w : ResponseWriter) (r : Request) (σ : W) (rw : RequestWrapper)
    (hparse : parseRequest lib r = some (rw, none))
    (hresp : (beforePhase env rw σ).1.editedResponse.IsEmpty = false) :
    (handler env lib w r σ).calls.filter Call.isHandler = [] := by
  simp [handler, hparse, finish, dispatch, hresp, List.filter, Call.isHandler]

theorem before_response_skips_handlers_witness :
    (handler (registryEnv blockingRegistry (fun _ => true)) sampleLib
      ResponseWriter.fresh postWidgets 0).calls.filter Call.isHandler = [] :=
  before_response_skips_handlers (registryEnv blockingRegistry (fun _ => true)) sampleLib
    ResponseWriter.fresh postWidgets 0
    { RequestWrapper.zero with
      Message := { Message.zero with
        Res := "/widgets", Command := "post", Headers := some [], Parameters := some [] } }
    (by decide) (by decide)

/-- C4, evaluated on the code: `POST /widgets` with a BEFORE_EXEC interceptor
that fails with 401 and no AFTER_EXEC interceptor registered. No handler is
called, but `buildResponse` receives the empty response and no error, so no
status line and no body are written: the 401 is lost. -/
theorem before_error_lost_without_after :
    (handler (registryEnv rejectingRegistry (fun _ => false)) sampleLib
        ResponseWriter.fresh postWidgets 0).calls =
      [Call.interceptors InterceptorType.BEFORE_EXEC "/widgets" "post" 0
          { Message.zero with
            Res := "/widgets", Command := "post", Headers := some [], Parameters := some [] }
          Message.zero,
       Call.interceptors InterceptorType.AFTER_EXEC "/widgets" "post" 0
          { Message.zero with
            Res := "/widgets", Command := "post", Headers := some [], Parameters := some [] }
          Message.zero,
       Call.spawned InterceptorType.FINAL "/widgets" "post" 0
          { Message.zero with
            Res := "/widgets", Command := "post", Headers := some [], Parameters := some [] }
          Message.zero,
       Call.buildResponse Message.zero none] ∧
    (handler (registryEnv rejectingRegistry (fun _ => false)) sampleLib
        ResponseWriter.fresh postWidgets 0).writer =
      some { header := [("Content-Type", ["application/json; charset=utf-8"])],
             wroteHeader := false, status := 0, sentHeader := [], body := [] } := by
  decide

theorem dispatch_calls_not_buildResponse {S W : Type} (env : Env S W) (rw : RequestWrapper)
    (σ : W) (response : Message) (e : Option Error) :
    Call.buildResponse response e ∉ (dispatch env rw σ).calls := by
  unfold dispatch
  simp only []
  split_ifs <;> simp

theorem dispatch_withAfterEdit {S W : Type} (env : Env S W) (g : Message)
    (rw : RequestWrapper) (σ : W) :
    dispatch (withAfterEdit env g) rw σ = dispatch env rw σ := by
  simp [dispatch, beforePhase, withAfterEdit]

theorem dispatch_calls_shape {S W : Type} (env : Env S W) (rw : RequestWrapper) (σ : W) :
    ∃ scope0, (dispatch env rw σ).calls =
        [Call.interceptors InterceptorType.BEFORE_EXEC rw.Message.Res rw.Message.Command
          scope0 rw.Message Message.zero] ∨
      (∃ scope, (dispatch env rw σ).calls =
        [Call.interceptors InterceptorType.BEFORE_EXEC rw.Message.Res rw.Message.Command
          scope0 rw.Message Message.zero,
         Call.executeFunction (dispatch env rw σ).request scope]) ∨
      (∃ scope, (dispatch env rw σ).calls =
        [Call.interceptors InterceptorType.BEFORE_EXEC rw.Message.Res rw.Message.Command
          scope0 rw.Message Message.zero,
         Call.handleRequest (dispatch env rw σ).request scope]) := by
  refine ⟨(env.Init σ).1, ?_⟩
  unfold dispatch
  simp only []
  split_ifs <;> simp

/-- C6: when the request parses, the AFTER_EXEC phase, the FINAL phase and the
handler that ran (if one did) are all given one and the same request, with
its Res and Command, namely the request as it stood before the AFTER_EXEC
phase; and replacing the edited request that the AFTER_EXEC phase returns by
any other message changes nothing in what the handler does. -/
theorem after_request_edit_discarded {S W : Type} (env : Env S W) (lib : Lib)
    (w : ResponseWriter) (r : Request) (σ : W) (rw : RequestWrapper)
    (hparse : parseRequest lib r = some (rw, none)) :
    (∃ scope response, Call.interceptors InterceptorType.AFTER_EXEC
        (dispatch env rw σ).request.Res (dispatch env rw σ).request.Command scope
        (dispatch env rw σ).request response ∈ (handler env lib w r σ).calls) ∧
    (∃ scope response, Call.spawned InterceptorType.FINAL
        (dispatch env rw σ).request.Res (dispatch env rw σ).request.Command scope
        (dispatch env rw σ).request response ∈ (handler env lib w r σ).calls) ∧
    (∀ t res command scope request response,
      Call.spawned t res command scope request response ∈ (handler env lib w r σ).calls →
        t = InterceptorType.FINAL ∧ res = (dispatch env rw σ).request.Res ∧
          command = (dispatch env rw σ).request.Command ∧
          request = (dispatch env rw σ).request) ∧
    (∀ res command scope request response,
      Call.interceptors InterceptorType.AFTER_EXEC res command scope request response ∈
          (handler env lib w r σ).calls →
        res = (dispatch env rw σ).request.Res ∧
          command = (dispatch env rw σ).request.Command ∧
          request = (dispatch env rw σ).request) ∧
    (∀ request scope,
      (Call.executeFunction request scope ∈ (handler env lib w r σ).calls ∨
        Call.handleRequest request scope ∈ (handler env lib w r σ).calls) →
        request = (dispatch env rw σ).request) ∧
    (∀ g, handler (withAfterEdit env g) lib w r σ = handler env lib w r σ) := by
  obtain ⟨scope0, hshape⟩ := dispatch_calls_shape env rw σ
  refine ⟨?_, ?_, ?_, ?_, ?_, ?_⟩
  · exact ⟨afterScope env (dispatch env rw σ), (dispatch env rw σ).response,
      by simp [handler, hparse, finish]⟩
  · refine ⟨if !env.ScopeIsEmpty (afterPhase env (dispatch env rw σ)).1.editedRequestScope
        then (afterPhase env (dispatch env rw σ)).1.editedRequestScope
        else afterScope env (dispatch env rw σ),
      if !(afterPhase env (dispatch env rw σ)).1.editedResponse.IsEmpty
        then (afterPhase env (dispatch env rw σ)).1.editedResponse
        else (dispatch env rw σ).response, ?_⟩
    simp [handler, hparse, finish]
  · intro t res command scope request response hmem
    simp only [handler, hparse, finish, List.mem_append, List.mem_cons, List.mem_singleton,
      reduceCtorEq, false_or, List.not_mem_nil, or_false, Call.spawned.injEq] at hmem
    rcases hmem with hmem | hmem
    · rcases hshape with h | ⟨s, h⟩ | ⟨s, h⟩ <;> rw [h] at hmem <;> simp at hmem
    · exact ⟨hmem.1, hmem.2.1, hmem.2.2.1, hmem.2.2.2.2.1⟩
  · intro res command scope request response hmem
    simp only [handler, hparse, finish, List.mem_append, List.mem_cons, List.mem_singleton,
      reduceCtorEq, false_or, List.not_mem_nil, or_false, Call.interceptors.injEq,
      true_and] at hmem
    rcases hmem with hmem | hmem
    · rcases hshape with h | ⟨s, h⟩ | ⟨s, h⟩ <;> rw [h] at hmem <;> simp at hmem
    · exact ⟨hmem.1, hmem.2.1, hmem.2.2.2.1⟩
  · intro request scope hmem
    simp only [handler, hparse, finish, List.mem_append, List.mem_cons, List.mem_singleton,
      reduceCtorEq, false_or, List.not_mem_nil, or_false] at hmem
    rcases hshape with h | ⟨s, h⟩ | ⟨s, h⟩ <;> rw [h] at hmem <;> simp at hmem
    · exact hmem.1
    · exact hmem.1
  · intro g
    simp only [handler, hparse, finish, dispatch_withAfterEdit]
    simp [afterPhase, afterScope, withAfterEdit]

theorem after_request_edit_discarded_witness :
    handler (withAfterEdit (registryEnv emptyRegistry (fun _ => false)) blockedResponse)
        sampleLib ResponseWriter.fresh postWidgets 0 =
      handler (registryEnv emptyRegistry (fun _ => false)) sampleLib
        ResponseWriter.fresh postWidgets 0 :=
  (after_request_edit_discarded (registryEnv emptyRegistry (fun _ => false)) sampleLib
    ResponseWriter.fresh postWidgets 0
    { RequestWrapper.zero with
      Message := { Message.zero with
        Res := "/widgets", Command := "post", Headers := some [], Parameters := some [] } }
    (by decide)).2.2.2.2.2 blockedResponse

/-! ## Theorems about `parseRequest` -/

theorem equalFold_empty (s : String) : EqualFold s "" = true ↔ s = "" := by
  obtain ⟨l⟩ := s
  cases l with
  | nil => simp [EqualFold]
  | cons c cs =>
    simp only [EqualFold, List.map_cons]
    constructor
    · intro h
      exact absurd h (by simp)
    · intro h
      exact absurd (congrArg String.data h) (by simp)

theorem trimRight_eq_empty_iff (path : String) :
    TrimRight path "/" = "" ↔ ∀ c ∈ path.data, c = '/' := by
  obtain ⟨l⟩ := path
  have hmk : (String.mk (List.rdropWhile (fun c => ['/'].contains c) l) = "") ↔
      List.rdropWhile (fun c => ['/'].contains c) l = [] := by
    constructor
    · intro h
      exact congrArg String.data h
    · intro h
      rw [h]
  show String.mk (List.rdropWhile (fun c => ['/'].contains c) l) = "" ↔ _
  rw [hmk, List.rdropWhile_eq_nil_iff]
  simp

theorem index_empty_subject (sub : String) (h : Index "" sub = 0) : sub = "" := by
  obtain ⟨l⟩ := sub
  cases l with
  | nil => rfl
  | cons c cs => simp [Index, indexFrom] at h

/-- C8: when the path trimmed of its trailing slashes is empty, `parseRequest`
returns an error with status code 400 together with a wrapper whose message
is the untouched zero message, which is empty. -/
theorem parseRequest_root_rejected (lib : Lib) (r : Request)
    (hroot : TrimRight r.Path "/" = "") :
    ∃ rw e, parseRequest lib r = some (rw, some e) ∧ e.Code = 400 ∧
      rw.Message.IsEmpty = true ∧ rw.Message = Message.zero := by
  refine ⟨RequestWrapper.zero,
    ⟨StatusBadRequest, "Root path \x27/\x27 cannot be requested directly. "⟩, ?_, rfl, rfl, rfl⟩
  have hfold : EqualFold (TrimRight r.Path "/") "" = true := (equalFold_empty _).mpr hroot
  simp [parseRequest, hfold]

theorem parseRequest_root_rejected_witness :
    ∃ rw e, parseRequest sampleLib getRoot = some (rw, some e) ∧ e.Code = 400 ∧
      rw.Message.IsEmpty = true ∧ rw.Message = Message.zero :=
  parseRequest_root_rejected sampleLib getRoot (by decide)

theorem dropWhile_isSpace_of_all (payload : List Nat) (hall : payload.all isSpace = true) :
    (payload.dropWhile isSpace).head? = none := by
  induction payload with
  | nil => rfl
  | cons c rest ih =>
    simp only [List.all_cons, Bool.and_eq_true] at hall
    simp only [List.dropWhile, hall.1]
    exact ih hall.2

/-- C9, as stated, fails: the payload of one space is not empty and is no JSON
text (it holds nothing that could begin a value), yet the decoder reports
end-of-stream on it and `parseRequest` returns no error. -/
theorem parseRequest_blank_payload_accepted :
    postWidgetsBlank.Body = some { unread := [32] } ∧ ([32] : List Nat) ≠ [] ∧
      (([32] : List Nat).dropWhile isSpace).head? = none ∧
      ¬ ∃ rw e, parseRequest sampleLib postWidgetsBlank = some (rw, some e) ∧ e.Code = 400 := by
  refine ⟨rfl, by decide, by decide, ?_⟩
  rintro ⟨rw, e, h, _⟩
  have hval : parseRequest sampleLib postWidgetsBlank =
      some ({ RequestWrapper.zero with
              Message := { Message.zero with
                Res := "/widgets", Command := "post", Headers := some [],
                Parameters := some [] } }, none) := by decide
  rw [hval] at h
  simp at h

/-- C9, amended: for a path that is not the root and does not start with the
file prefix, with a body stream at hand and the decoder of `encoding/json`.
When the payload is empty or holds white space only, `parseRequest` returns no
error and a message whose body is the nil map, which has no entry. When the
first byte after the white space is neither `{` nor `n`, so that the payload
cannot begin a JSON object or `null`, and when the payload begins like one
but the decoder does not accept its first value, `parseRequest` returns an
error with status code 400. -/
theorem parseRequest_json_body (lib : Lib) (r : Request) (stream : ReadCloser)
    (unmarshal : List Nat → Option Body × Bool)
    (hroot : TrimRight r.Path "/" ≠ "")
    (hfile : Index (TrimRight r.Path "/") lib.ResourceTypeFiles ≠ 0)
    (hbody : r.Body = some stream)
    (hdecode : lib.decode = decodeJSON unmarshal) :
    (stream.unread.all isSpace = true →
      ∃ rw, parseRequest lib r = some (rw, none) ∧ rw.Message.Body = none ∧
        goLen rw.Message.Body = 0) ∧
    (∀ c, (stream.unread.dropWhile isSpace).head? = some c → c ≠ 123 → c ≠ 110 →
      ∃ rw e, parseRequest lib r = some (rw, some e) ∧ e.Code = 400) ∧
    (∀ c, (stream.unread.dropWhile isSpace).head? = some c →
      (unmarshal stream.unread).2 = false →
      ∃ rw e, parseRequest lib r = some (rw, some e) ∧ e.Code = 400) := by
  have hfold : EqualFold (TrimRight r.Path "/") "" = false := by
    rw [Bool.eq_false_iff]
    intro h
    exact hroot ((equalFold_empty _).mp h)
  have heof : lib.decode stream = DecodeResult.eof →
      ∃ rw, parseRequest lib r = some (rw, none) ∧ rw.Message.Body = none ∧
        goLen rw.Message.Body = 0 := by
    intro hdec
    simp [parseRequest, hfold, hfile, hbody, hdec, RequestWrapper.zero, Message.zero, goLen]
  have hfailed : ∀ left, lib.decode stream = DecodeResult.failed left →
      ∃ rw e, parseRequest lib r = some (rw, some e) ∧ e.Code = 400 := by
    intro left hdec
    simp only [parseRequest, hfold, hfile, hbody, hdec, Bool.false_eq_true, if_false,
      beq_iff_eq]
    exact ⟨_, _, rfl, rfl⟩
  refine ⟨?_, ?_, ?_⟩
  · intro hall
    apply heof
    rw [hdecode]
    simp only [decodeJSON, dropWhile_isSpace_of_all _ hall]
  · intro c hc h1 h2
    apply hfailed none
    rw [hdecode]
    have hne : (c == 123 || c == 110) = false := by simp [h1, h2]
    simp only [decodeJSON, hc, hne, Bool.false_eq_true, if_false]
  · intro c hc hrej
    by_cases hopen : (c == 123 || c == 110) = true
    · apply hfailed (unmarshal stream.unread).1
      rw [hdecode]
      simp only [decodeJSON, hc, hopen, hrej, if_true, Bool.false_eq_true, if_false]
    · apply hfailed none
      rw [hdecode]
      simp only [decodeJSON, hc, hopen, Bool.false_eq_true, if_false]

theorem parseRequest_json_body_witness :
    (∃ rw, parseRequest sampleLib postWidgetsBlank = some (rw, none) ∧
        rw.Message.Body = none ∧ goLen rw.Message.Body = 0) ∧
    (∃ rw e, parseRequest sampleLib postWidgetsMarkup = some (rw, some e) ∧ e.Code = 400) ∧
    (∃ rw e, parseRequest sampleLib postWidgetsBroken = some (rw, some e) ∧ e.Code = 400) :=
  ⟨(parseRequest_json_body sampleLib postWidgetsBlank { unread := [32] } sampleUnmarshal
      (by decide) (by decide) rfl rfl).1 (by decide),
   (parseRequest_json_body sampleLib postWidgetsMarkup { unread := [60, 97, 62] }
      sampleUnmarshal (by decide) (by decide) rfl rfl).2.1 60 (by decide) (by decide)
      (by decide),
   (parseRequest_json_body sampleLib postWidgetsBroken { unread := [123] } sampleUnmarshal
      (by decide) (by decide) rfl rfl).2.2 123 (by decide) (by decide)⟩

/-- C10: for a path that starts with the (non-empty) file prefix: without a
body stream `parseRequest` returns the error 400 "Request body cannot be empty
for create file requests."; with a body stream it returns no error, the
message carries that very stream, nothing read from it, as ReqBodyRaw, and
its Body stays nil. -/
theorem parseRequest_file_body (lib : Lib) (r : Request)
    (hnonempty : lib.ResourceTypeFiles ≠ "")
    (hfile : Index (TrimRight r.Path "/") lib.ResourceTypeFiles = 0) :
    (r.Body = none →
      ∃ rw, parseRequest lib r = some (rw,
        some ⟨400, "Request body cannot be empty for create file requests."⟩)) ∧
    (∀ stream, r.Body = some stream →
      ∃ rw, parseRequest lib r = some (rw, none) ∧ rw.Message.ReqBodyRaw = some stream ∧
        rw.Message.Body = none) := by
  have hroot : TrimRight r.Path "/" ≠ "" := by
    intro h
    rw [h] at hfile
    exact hnonempty (index_empty_subject _ hfile)
  have hfold : EqualFold (TrimRight r.Path "/") "" = false := by
    rw [Bool.eq_false_iff]
    intro h
    exact hroot ((equalFold_empty _).mp h)
  constructor
  · intro hbody
    simp [parseRequest, hfold, hfile, hbody, StatusBadRequest]
  · intro stream hbody
    simp [parseRequest, hfold, hfile, hbody, RequestWrapper.zero, Message.zero]

theorem parseRequest_file_body_witness :
    (∃ rw, parseRequest sampleLib postFileNoBody = some (rw,
        some ⟨400, "Request body cannot be empty for create file requests."⟩)) ∧
    (∃ rw, parseRequest sampleLib postFile = some (rw, none) ∧
        rw.Message.ReqBodyRaw = some { unread := [1, 2, 3] } ∧ rw.Message.Body = none) :=
  ⟨(parseRequest_file_body sampleLib postFileNoBody (by decide) (by decide)).1 rfl,
   (parseRequest_file_body sampleLib postFile (by decide) (by decide)).2 _ rfl⟩

/-- C11, evaluated on the code: `POST /files/abc` with a body stream of zero
bytes. `parseRequest` tests the stream against nil only, so it returns no
error and attaches the empty stream; the handler makes no call of
`printError` and goes on to the generic handler, here answering 200. -/
theorem empty_file_stream_accepted :
    parseRequest sampleLib postFileEmpty =
      some ({ RequestWrapper.zero with
              Message := { Message.zero with
                Res := "/files/abc", Command := "post", Headers := some [],
                Parameters := some [], ReqBodyRaw := some { unread := [] } } }, none) ∧
    (handler (registryEnv emptyRegistry (fun _ => false)) sampleLib
        ResponseWriter.fresh postFileEmpty 0).calls.filter Call.isHandler =
      [Call.handleRequest
        { Message.zero with
          Res := "/files/abc", Command := "post", Headers := some [],
          Parameters := some [], ReqBodyRaw := some { unread := [] } } 0] ∧
    (handler (registryEnv emptyRegistry (fun _ => false)) sampleLib
        ResponseWriter.fresh postFileEmpty 0).writer =
      some { header := [("Content-Type", ["application/json; charset=utf-8"])],
             wroteHeader := true, status := 200,
             sentHeader := [("Content-Type", ["application/json; charset=utf-8"])],
             body := [] } ∧
    Call.printError ⟨400, "Request body cannot be empty for create file requests."⟩ ∉
      (handler (registryEnv emptyRegistry (fun _ => false)) sampleLib
        ResponseWriter.fresh postFileEmpty 0).calls := by
  decide

theorem toLower_not_upper (c : Char) : (Char.toLower c).isUpper = false := by
  unfold Char.toLower
  simp only []
  split
  · rename_i h
    have hv : (c.toNat + 32).isValidChar := by
      left; omega
    have hval : (Char.ofNat (c.toNat + 32)).val.toNat = c.toNat + 32 := by
      unfold Char.ofNat
      simp [hv, Char.ofNatAux, UInt32.toNat]
    simp only [Char.isUpper, Bool.and_eq_false_imp, decide_eq_true_eq, decide_eq_false_iff_not]
    intro _ h2
    have h3 : (Char.ofNat (c.toNat + 32)).val.toNat ≤ 90 := h2
    omega
  · rename_i h
    simp only [Char.isUpper, Bool.and_eq_false_imp, decide_eq_true_eq, decide_eq_false_iff_not]
    intro h1 h2
    apply h
    have a1 : 65 ≤ c.val.toNat := h1
    have a2 : c.val.toNat ≤ 90 := h2
    exact ⟨a1, a2⟩

theorem trimRight_last (path : String) :
    (TrimRight path "/").data.getLast? ≠ some '/' := by
  obtain ⟨l⟩ := path
  show (List.rdropWhile (fun c => ['/'].contains c) l).getLast? ≠ some '/'
  by_cases hl : List.rdropWhile (fun c => ['/'].contains c) l = []
  · rw [hl]
    simp
  · rw [List.getLast?_eq_getLast _ hl]
    intro h
    have hlast := List.rdropWhile_last_not (fun c => ['/'].contains c) l hl
    rw [Option.some.inj h] at hlast
    exact hlast (by decide)

theorem parseRequest_ok_not_root (lib : Lib) (r : Request) (rw : RequestWrapper)
    (hparse : parseRequest lib r = some (rw, none)) : EqualFold (TrimRight r.Path "/") "" = false := by
  rw [Bool.eq_false_iff]
  intro h
  simp [parseRequest, h] at hparse

/-- C12: when the request parses, the message has as Res the path with its
trailing slashes removed, which is not empty and does not end in a slash; as
Command the lower-cased method, in which no upper-case letter is left; as
Headers the request headers and as Parameters the query parameters. -/
theorem parseRequest_fields (lib : Lib) (r : Request) (rw : RequestWrapper)
    (hparse : parseRequest lib r = some (rw, none)) :
    rw.Message.Res = TrimRight r.Path "/" ∧ rw.Message.Res ≠ "" ∧
      rw.Message.Res.data.getLast? ≠ some '/' ∧
      rw.Message.Command = ToLower r.Method ∧
      (∀ c ∈ rw.Message.Command.data, c.isUpper = false) ∧
      rw.Message.Headers = r.Header ∧ rw.Message.Parameters = some r.Query := by
  have hfold := parseRequest_ok_not_root lib r rw hparse
  have hne : TrimRight r.Path "/" ≠ "" := by
    intro h
    rw [(equalFold_empty _).mpr h] at hfold
    exact Bool.noConfusion hfold
  have hlow : ∀ c ∈ (ToLower r.Method).data, c.isUpper = false := by
    intro c hc
    simp only [ToLower, List.mem_map] at hc
    obtain ⟨d, _, hd⟩ := hc
    rw [← hd]
    exact toLower_not_upper d
  have hres : rw.Message.Res = TrimRight r.Path "/" ∧
      rw.Message.Command = ToLower r.Method ∧
      rw.Message.Headers = r.Header ∧ rw.Message.Parameters = some r.Query := by
    simp only [parseRequest, hfold, Bool.false_eq_true, if_false] at hparse
    split at hparse
    · split at hparse
      · simp at hparse
      · simp only [Option.some.injEq, Prod.mk.injEq, and_true] at hparse
        rw [← hparse]
        exact ⟨rfl, rfl, rfl, rfl⟩
    · split at hparse
      · simp at hparse
      · split at hparse
        · simp only [Option.some.injEq, Prod.mk.injEq, and_true] at hparse
          rw [← hparse]
          exact ⟨rfl, rfl, rfl, rfl⟩
        · simp only [Option.some.injEq, Prod.mk.injEq, and_true] at hparse
          rw [← hparse]
          exact ⟨rfl, rfl, rfl, rfl⟩
        · simp at hparse
  obtain ⟨h1, h2, h3, h4⟩ := hres
  refine ⟨h1, ?_, ?_, h2, ?_, h3, h4⟩
  · rw [h1]
    exact hne
  · rw [h1]
    exact trimRight_last r.Path
  · rw [h2]
    exact hlow

theorem parseRequest_fields_witness :
    "/widgets" = TrimRight "/widgets" "/" ∧ "/widgets" ≠ "" ∧
      "/widgets".data.getLast? ≠ some '/' ∧
      "post" = ToLower "POST" ∧
      (∀ c ∈ "post".data, c.isUpper = false) ∧
      (some [] : Option Values) = some [] ∧ (some [] : Option Values) = some [] :=
  parseRequest_fields sampleLib postWidgets
    { RequestWrapper.zero with
      Message := { Message.zero with
        Res := "/widgets", Command := "post", Headers := some [], Parameters := some [] } }
    (by decide)

/-! ## Theorems about `buildResponse` and `printError` -/

theorem copyHeaders_some (lib : Lib) (hs : Values) (w : ResponseWriter)
    (hvals : ∀ p ∈ hs, p.2 ≠ []) :
    ∃ h, copyHeaders lib hs w = some { w with header := h } := by
  induction hs generalizing w with
  | nil => exact ⟨w.header, rfl⟩
  | cons p rest ih =>
    obtain ⟨k, v⟩ := p
    cases v with
    | nil => exact absurd rfl (hvals (k, []) (List.mem_cons_self _ _))
    | cons v0 vs =>
      obtain ⟨h, hh⟩ := ih (w.Set lib k v0) (fun q hq => hvals q (List.mem_cons_of_mem _ hq))
      refine ⟨h, ?_⟩
      show copyHeaders lib rest (w.Set lib k v0) = _
      rw [hh]
      rfl

/-- C13, as stated, fails. With the error code 0 on a response of status 0 no
status is set by `buildResponse` and the write of the body sends 200, not the
error code; and on a response one of whose headers has no value the header
loop indexes an empty list and `buildResponse` panics, so no status, here
404, is written. -/
theorem buildResponse_status_not_as_claimed :
    (¬ ∃ w, buildResponse sampleLib ResponseWriter.fresh Message.zero
        (some ⟨0, "failed"⟩) = some w ∧ w.status = 0) ∧
    (¬ ∃ w, buildResponse sampleLib ResponseWriter.fresh danglingHeaderResponse
        (some ⟨500, "failed"⟩) = some w ∧ w.status = 404) := by
  constructor
  · rintro ⟨w, h, hs⟩
    have hval : buildResponse sampleLib ResponseWriter.fresh Message.zero
        (some ⟨0, "failed"⟩) =
        some { header := [("Content-Type", ["application/json; charset=utf-8"])],
               wroteHeader := true, status := 200,
               sentHeader := [("Content-Type", ["application/json; charset=utf-8"])],
               body := [Chunk.text "code,message"] } := by decide
    rw [hval] at h
    rw [← Option.some.inj h] at hs
    exact absurd hs (by decide)
  · rintro ⟨w, h, _⟩
    have hnone : buildResponse sampleLib ResponseWriter.fresh danglingHeaderResponse
        (some ⟨500, "failed"⟩) = none := by decide
    rw [hnone] at h
    exact Option.noConfusion h

/-- C13, amended: for a response each of whose headers has at least one value
and whose Status is 0 or a status code from 200 to 999, on a writer whose
status line has not gone out. With an error `e` (its code 0 or from 200 to
999 when it is to be adopted) the status sent is the response's Status when
that is not 0, else `e.Code` when that is not 0 (when both are 0 no status is
set and the write of the body sends 200), and the body serialized and handed
to the writer is the response's Body when present, else the map of `e.Code`
and `e.Message`. Without an error the response's Status and Body are used as
they are; with Status 0 no status is set, so nothing goes out when there is
no body either, and 200 goes out with the first write otherwise. -/
theorem buildResponse_status_and_body (lib : Lib) (w : ResponseWriter) (response : Message)
    (hvals : ∀ p ∈ response.Headers.getD [], p.2 ≠ [])
    (hw : w.wroteHeader = false)
    (hstatus : response.Status = 0 ∨ (200 ≤ response.Status ∧ response.Status ≤ 999)) :
    (∀ e : Error, (response.Status = 0 → e.Code = 0 ∨ (200 ≤ e.Code ∧ e.Code ≤ 999)) →
      ∃ w1, buildResponse lib w response (some e) = some w1 ∧
      w1.wroteHeader = true ∧
      (response.Status ≠ 0 → w1.status = response.Status) ∧
      (response.Status = 0 → e.Code ≠ 0 → w1.status = e.Code) ∧
      (∀ s, lib.marshal (response.Body.getD
          [("code", GoValue.int e.Code), ("message", GoValue.str e.Message)]) = some s →
        w1.body.getLast? = some (Chunk.text s) ∧
          (response.Status = 0 → e.Code = 0 → w1.status = 200))) ∧
    (∃ w1, buildResponse lib w response none = some w1 ∧
      (response.Status ≠ 0 → w1.wroteHeader = true ∧ w1.status = response.Status) ∧
      (response.Status = 0 → response.RawBody = none → response.Body = none →
        w1.wroteHeader = false ∧ w1.body = w.body) ∧
      (response.Status = 0 → response.RawBody ≠ none → w1.status = 200) ∧
      (∀ b s, response.Body = some b → lib.marshal b = some s →
        w1.body.getLast? = some (Chunk.text s) ∧ (response.Status = 0 → w1.status = 200))) := by
  have writeHeader_final : ∀ (hd : Values) (st0 : Int) (sh : Values) (bd : List Chunk)
      (inf : List Int) (code : Int), 200 ≤ code → code ≤ 999 →
      ResponseWriter.WriteHeader
          { header := hd, wroteHeader := false, status := st0, sentHeader := sh, body := bd,
            informational := inf } code =
        some { header := hd, wroteHeader := true, status := code, sentHeader := hd,
               body := bd, informational := inf } := by
    intro hd st0 sh bd inf code h1 h2
    have hn1 : ¬ (code < 100 ∨ 999 < code) := by omega
    have hn2 : ¬ (100 ≤ code ∧ code ≤ 199 ∧ code ≠ 101) := by omega
    simp only [ResponseWriter.WriteHeader, Bool.false_eq_true, if_false, if_neg hn1,
      if_neg hn2]
  obtain ⟨h, hh⟩ := copyHeaders_some lib (response.Headers.getD [])
    (w.Set lib "Content-Type" "application/json; charset=utf-8") hvals
  obtain ⟨rid, res, cmd, hd, pr, mf, bd, rb, rq, st⟩ := response
  obtain ⟨whd, wwr, wst, wsh, wbd, winf⟩ := w
  simp only at hw hstatus
  subst hw
  simp only [ResponseWriter.Set] at hh
  constructor
  · rintro ⟨code, msg⟩ hcode
    simp only at hcode
    simp only [buildResponse, ResponseWriter.Set, hh, applyError]
    by_cases hst : st = 0
    · subst hst
      by_cases hc : code = 0
      · subst hc
        cases bd <;> cases rb <;>
          simp only [ResponseWriter.WriteHeader, ResponseWriter.Write, httpError,
            ResponseWriter.Set, beq_self_eq_true, if_true, Option.isNone_none,
            Option.isNone_some, bne_self_eq_false, Bool.false_eq_true, if_false,
            Option.getD_none, Option.getD_some]
        all_goals (clear writeHeader_final; split <;> simp_all [StatusInternalServerError])
      · obtain ⟨h1, h2⟩ := (hcode rfl).resolve_left hc
        have hb : (code != 0) = true := by simpa using hc
        cases bd <;> cases rb <;>
          simp only [ResponseWriter.Write, httpError,
            ResponseWriter.Set, beq_self_eq_true, if_true, Option.isNone_none,
            Option.isNone_some, hb, Bool.false_eq_true, if_false,
            Option.getD_none, Option.getD_some, writeHeader_final _ _ _ _ _ code h1 h2]
        all_goals (clear writeHeader_final; split <;> simp_all [ResponseWriter.WriteHeader])
    · obtain ⟨h1, h2⟩ := hstatus.resolve_left hst
      have hb : (st != 0) = true := by simpa using hst
      have hb2 : (st == 0) = false := by simpa using hst
      cases bd <;> cases rb <;>
        simp only [ResponseWriter.Write, httpError,
          ResponseWriter.Set, hb2, Option.isNone_none,
          Option.isNone_some, hb, Bool.false_eq_true, if_false, if_true,
          Option.getD_none, Option.getD_some, writeHeader_final _ _ _ _ _ st h1 h2]
      all_goals (clear writeHeader_final; split <;> simp_all [ResponseWriter.WriteHeader])
  · simp only [buildResponse, ResponseWriter.Set, hh, applyError]
    by_cases hst : st = 0
    · subst hst
      cases bd <;> cases rb <;>
        simp only [ResponseWriter.WriteHeader, ResponseWriter.Write, httpError,
          ResponseWriter.Set, bne_self_eq_false, Bool.false_eq_true, if_false]
      all_goals clear writeHeader_final
      all_goals first
        | done
        | (split <;> simp_all [StatusInternalServerError] <;> intro b s hb hm <;> subst hb <;>
            simp_all)
        | simp_all
    · obtain ⟨h1, h2⟩ := hstatus.resolve_left hst
      have hb : (st != 0) = true := by simpa using hst
      cases bd <;> cases rb <;>
        simp only [ResponseWriter.Write, httpError, ResponseWriter.Set, hb, if_true,
          writeHeader_final _ _ _ _ _ st h1 h2]
      all_goals clear writeHeader_final
      all_goals first
        | done
        | (split <;> simp_all [ResponseWriter.WriteHeader] <;> intro b s hb hm <;> subst hb <;>
            simp_all)
        | simp_all

theorem buildResponse_status_and_body_witness :
    ∃ w1, buildResponse sampleLib ResponseWriter.fresh blockedResponse
        (some ⟨500, "failed"⟩) = some w1 ∧ w1.status = 403 ∧
      w1.body.getLast? = some (Chunk.text "reason") :=
  match (buildResponse_status_and_body sampleLib ResponseWriter.fresh blockedResponse
      (by decide) rfl (by decide)).1 ⟨500, "failed"⟩ (by decide) with
  | ⟨w1, h1, _, h3, _, h5⟩ => ⟨w1, h1, h3 (by decide), (h5 "reason" rfl).1⟩

theorem parseRequest_error_code (lib : Lib) (r : Request) (rw : RequestWrapper) (e : Error)
    (hparse : parseRequest lib r = some (rw, some e)) : e.Code = 400 := by
  unfold parseRequest at hparse
  simp only [] at hparse
  split at hparse
  · simp only [Option.some.injEq, Prod.mk.injEq] at hparse
    rw [← hparse.2]
    rfl
  · split at hparse
    · split at hparse
      · simp only [Option.some.injEq, Prod.mk.injEq] at hparse
        rw [← hparse.2]
        rfl
      · simp at hparse
    · split at hparse
      · simp at hparse
      · split at hparse
        · simp at hparse
        · simp at hparse
        · simp only [Option.some.injEq, Prod.mk.injEq] at hparse
          rw [← hparse.2]
          rfl

/-- C14: when `parseRequest` fails with error `e`, the only call the handler
makes is `printError e`: no interceptor phase, no handler, outside state
untouched. On a writer whose status line has not gone out, the encoder
succeeding on the one-field map, the response is status `e.Code` and as body
the serialized map with the single field `message` holding `e.Message`. -/
theorem parse_error_goes_to_printError {S W : Type} (env : Env S W) (lib : Lib)
    (w : ResponseWriter) (r : Request) (σ : W) (rw : RequestWrapper) (e : Error) (s : String)
    (hparse : parseRequest lib r = some (rw, some e))
    (hw : w.wroteHeader = false)
    (hm : lib.marshal [("message", GoValue.str e.Message)] = some s) :
    (handler env lib w r σ).calls = [Call.printError e] ∧
    (handler env lib w r σ).world = σ ∧
    (handler env lib w r σ).writer =
      some { w with
        wroteHeader := true, status := e.Code, sentHeader := w.header,
        body := w.body ++ [Chunk.text s] } := by
  have writeHeader_final : ∀ (hd : Values) (st0 : Int) (sh : Values) (bd : List Chunk)
      (inf : List Int) (code : Int), 200 ≤ code → code ≤ 999 →
      ResponseWriter.WriteHeader
          { header := hd, wroteHeader := false, status := st0, sentHeader := sh, body := bd,
            informational := inf } code =
        some { header := hd, wroteHeader := true, status := code, sentHeader := hd,
               body := bd, informational := inf } := by
    intro hd st0 sh bd inf code h1 h2
    have hn1 : ¬ (code < 100 ∨ 999 < code) := by omega
    have hn2 : ¬ (100 ≤ code ∧ code ≤ 199 ∧ code ≠ 101) := by omega
    simp only [ResponseWriter.WriteHeader, Bool.false_eq_true, if_false, if_neg hn1,
      if_neg hn2]
  have hcode := parseRequest_error_code lib r rw e hparse
  obtain ⟨whd, wwr, wst, wsh, wbd, winf⟩ := w
  simp only at hw
  subst hw
  have hwh := writeHeader_final whd wst wsh wbd winf e.Code (by omega) (by omega)
  simp [handler, hparse, printError, hm, hwh, ResponseWriter.Write]

theorem parse_error_goes_to_printError_witness :
    (handler (registryEnv blockingRegistry (fun _ => true)) sampleLib ResponseWriter.fresh
        getRoot 0).calls =
      [Call.printError ⟨400, "Root path \x27/\x27 cannot be requested directly. "⟩] ∧
    (handler (registryEnv blockingRegistry (fun _ => true)) sampleLib ResponseWriter.fresh
        getRoot 0).world = 0 ∧
    (handler (registryEnv blockingRegistry (fun _ => true)) sampleLib ResponseWriter.fresh
        getRoot 0).writer =
      some { header := [], wroteHeader := true, status := 400, sentHeader := [],
             body := [Chunk.text "message"] } :=
  parse_error_goes_to_printError (registryEnv blockingRegistry (fun _ => true)) sampleLib
    ResponseWriter.fresh getRoot 0 RequestWrapper.zero
    ⟨400, "Root path \x27/\x27 cannot be requested directly. "⟩ "message"
    (by decide) rfl rfl

/-! ## Theorems about the phases around the handler -/

/-- C15: when the request parses, the BEFORE_EXEC phase returns a non-empty
response R and the AFTER_EXEC phase returns an empty response, no handler is
called and `buildResponse` is called last, on exactly R and the error of the
AFTER_EXEC phase. When R is status 403 with body `reason: blocked` and the
AFTER_EXEC phase returns no error, the answer on a writer whose status line
has not gone out is status 403 and the serialized body. -/
theorem before_response_passes_through {S W : Type} (env : Env S W) (lib : Lib)
    (w : ResponseWriter) (r : Request) (σ : W) (rw : RequestWrapper)
    (hparse : parseRequest lib r = some (rw, none))
    (hresp : (beforePhase env rw σ).1.editedResponse.IsEmpty = false)
    (hafter : (afterPhase env (dispatch env rw σ)).1.editedResponse.IsEmpty = true) :
    (handler env lib w r σ).calls.filter Call.isHandler = [] ∧
    (handler env lib w r σ).calls.getLast? =
      some (Call.buildResponse (beforePhase env rw σ).1.editedResponse
        (afterPhase env (dispatch env rw σ)).1.err) ∧
    (handler env lib w r σ).writer =
      buildResponse lib w (beforePhase env rw σ).1.editedResponse
        (afterPhase env (dispatch env rw σ)).1.err ∧
    ((beforePhase env rw σ).1.editedResponse = blockedResponse →
      (afterPhase env (dispatch env rw σ)).1.err = none → w.wroteHeader = false →
      ∀ s, lib.marshal [("reason", GoValue.str "blocked")] = some s →
        ∃ w1, (handler env lib w r σ).writer = some w1 ∧ w1.wroteHeader = true ∧
          w1.status = 403 ∧ w1.body = w.body ++ [Chunk.text s]) := by
  have hst : (dispatch env rw σ).response = (beforePhase env rw σ).1.editedResponse := by
    simp [dispatch, hresp]
  have hwr : (handler env lib w r σ).writer =
      buildResponse lib w (beforePhase env rw σ).1.editedResponse
        (afterPhase env (dispatch env rw σ)).1.err := by
    simp [handler, hparse, finish, hafter, hst]
  refine ⟨?_, ?_, hwr, ?_⟩
  · simp [handler, hparse, finish, dispatch, hresp, List.filter, Call.isHandler]
  · simp [handler, hparse, finish, hafter, hst]
  · intro hR herr hw s hm
    rw [hwr, hR, herr]
    simp [buildResponse, blockedResponse, Message.zero, copyHeaders, applyError, hm,
      ResponseWriter.WriteHeader, ResponseWriter.Write, ResponseWriter.Set, hw]

theorem before_response_passes_through_witness :
    ∃ w1, (handler (registryEnv blockingRegistry (fun _ => true)) sampleLib
        ResponseWriter.fresh postWidgets 0).writer = some w1 ∧ w1.wroteHeader = true ∧
      w1.status = 403 ∧ w1.body = ResponseWriter.fresh.body ++ [Chunk.text "reason"] :=
  (before_response_passes_through (registryEnv blockingRegistry (fun _ => true)) sampleLib
    ResponseWriter.fresh postWidgets 0
    { RequestWrapper.zero with
      Message := { Message.zero with
        Res := "/widgets", Command := "post", Headers := some [], Parameters := some [] } }
    (by decide) (by decide) (by decide)).2.2.2 rfl rfl rfl "reason" rfl

/-! ## The content type of the answer -/

theorem lookup_filter_ne (key other : String) (l : Values) (hne : other ≠ key) :
    List.lookup key (l.filter (fun p => p.1 != other)) = List.lookup key l := by
  induction l with
  | nil => rfl
  | cons p rest ih =>
    obtain ⟨k, v⟩ := p
    by_cases hk : k = other
    · subst hk
      have hkk : (key == k) = false := by
        rw [beq_eq_false_iff_ne]
        exact fun h => hne h.symm
      simp [List.filter, List.lookup, hkk, ih]
    · have hf : (k != other) = true := by simpa using hk
      simp only [List.filter, hf, List.lookup, ih]

theorem copyHeaders_lookup (lib : Lib) (key : String) (hs : Values) (w : ResponseWriter)
    (hvals : ∀ p ∈ hs, p.2 ≠ []) (hkeys : ∀ p ∈ hs, lib.canonicalKey p.1 ≠ key) :
    ∃ h, copyHeaders lib hs w = some { w with header := h } ∧
      List.lookup key h = List.lookup key w.header := by
  induction hs generalizing w with
  | nil => exact ⟨w.header, rfl, rfl⟩
  | cons p rest ih =>
    obtain ⟨k, v⟩ := p
    cases v with
    | nil => exact absurd rfl (hvals (k, []) (List.mem_cons_self _ _))
    | cons v0 vs =>
      obtain ⟨h, hh, hl⟩ := ih (w.Set lib k v0)
        (fun q hq => hvals q (List.mem_cons_of_mem _ hq))
        (fun q hq => hkeys q (List.mem_cons_of_mem _ hq))
      refine ⟨h, ?_, ?_⟩
      · show copyHeaders lib rest (w.Set lib k v0) = _
        rw [hh]
        rfl
      · rw [hl]
        have hne : lib.canonicalKey k ≠ key := hkeys (k, v0 :: vs) (List.mem_cons_self _ _)
        have hkk : (key == lib.canonicalKey k) = false := by
          rw [beq_eq_false_iff_ne]
          exact fun h => hne h.symm
        simp only [ResponseWriter.Set, List.lookup, hkk]
        exact lookup_filter_ne key (lib.canonicalKey k) w.header hne

theorem applyError_rawBody (response : Message) (err : Option Error) :
    (applyError response err).RawBody = response.RawBody := by
  cases err with
  | none => rfl
  | some e =>
    simp only [applyError]
    split_ifs <;> rfl

/-- C17, as stated, fails: a response that carries a `Content-Type` header of
its own is answered with that content type, the header loop replacing the
JSON one set before it. -/
theorem buildResponse_content_type_replaced :
    ¬ ∃ w, buildResponse sampleLib ResponseWriter.fresh htmlResponse none = some w ∧
        List.lookup "Content-Type" w.wireHeader = some ["application/json; charset=utf-8"] := by
  rintro ⟨w, h, hl⟩
  have hval : buildResponse sampleLib ResponseWriter.fresh htmlResponse none =
      some { header := [("Content-Type", ["text/html"])], wroteHeader := true, status := 200,
             sentHeader := [("Content-Type", ["text/html"])],
             body := [Chunk.bytes [60, 112, 62]] } := by decide
  rw [hval] at h
  rw [← Option.some.inj h] at hl
  revert hl
  decide

/-- C17, amended: on a writer whose status line has not gone out, for a
response each of whose headers has at least one value and none of whose
headers is `Content-Type` in canonical form, and for every error or none,
the status to write being 0 or a status code from 200 to 999 other than 304,
the answer carries the header `Content-Type: application/json;
charset=utf-8`, provided the body to serialize is encoded without failure or
the status line has gone out before (a status other than 0, or a raw body)
when the encoder fails. -/
theorem buildResponse_content_type (lib : Lib) (w : ResponseWriter) (response : Message)
    (err : Option Error)
    (hw : w.wroteHeader = false)
    (hvals : ∀ p ∈ response.Headers.getD [], p.2 ≠ [])
    (hkeys : ∀ p ∈ response.Headers.getD [],
      lib.canonicalKey p.1 ≠ lib.canonicalKey "Content-Type")
    (hstatus : (applyError response err).Status = 0 ∨
      (200 ≤ (applyError response err).Status ∧ (applyError response err).Status ≤ 999 ∧
        (applyError response err).Status ≠ 304))
    (hm : (applyError response err).Status ≠ 0 ∨ response.RawBody ≠ none ∨
      ∀ b, (applyError response err).Body = some b → lib.marshal b ≠ none) :
    ∃ w1, buildResponse lib w response err = some w1 ∧
      List.lookup (lib.canonicalKey "Content-Type") w1.wireHeader =
        some ["application/json; charset=utf-8"] := by
  have writeHeader_final : ∀ (hd : Values) (st0 : Int) (sh : Values) (bd : List Chunk)
      (inf : List Int) (code : Int), 200 ≤ code → code ≤ 999 →
      ResponseWriter.WriteHeader
          { header := hd, wroteHeader := false, status := st0, sentHeader := sh, body := bd,
            informational := inf } code =
        some { header := hd, wroteHeader := true, status := code, sentHeader := hd,
               body := bd, informational := inf } := by
    intro hd st0 sh bd inf code h1 h2
    have hn1 : ¬ (code < 100 ∨ 999 < code) := by omega
    have hn2 : ¬ (100 ≤ code ∧ code ≤ 199 ∧ code ≠ 101) := by omega
    simp only [ResponseWriter.WriteHeader, Bool.false_eq_true, if_false, if_neg hn1,
      if_neg hn2]
  obtain ⟨h, hh, hl⟩ := copyHeaders_lookup lib (lib.canonicalKey "Content-Type")
    (response.Headers.getD []) (w.Set lib "Content-Type" "application/json; charset=utf-8")
    hvals hkeys
  have hl2 : List.lookup (lib.canonicalKey "Content-Type") h =
      some ["application/json; charset=utf-8"] := by
    rw [hl]
    simp [ResponseWriter.Set, List.lookup]
  rw [← applyError_rawBody response err] at hm
  simp only [buildResponse, hh]
  generalize applyError response err = r1 at hm hstatus ⊢
  obtain ⟨rid, res, cmd, hd, pr, mf, bd, rb, rq, st⟩ := r1
  obtain ⟨whd, wwr, wst, wsh, wbd, winf⟩ := w
  simp only at hw hstatus
  subst hw
  simp only [ResponseWriter.Set] at hm ⊢
  by_cases hst : st = 0
  · subst hst
    cases bd <;> cases rb <;>
      simp only [ResponseWriter.WriteHeader, ResponseWriter.Write, httpError,
        ResponseWriter.Set, ResponseWriter.wireHeader, bne_self_eq_false, Bool.false_eq_true,
        if_false, if_true]
    all_goals clear writeHeader_final
    all_goals first
      | exact ⟨_, rfl, hl2⟩
      | (split <;> simp_all [ResponseWriter.wireHeader])
  · obtain ⟨h1, h2, _⟩ := hstatus.resolve_left hst
    have hb : (st != 0) = true := by simpa using hst
    cases bd <;> cases rb <;>
      simp only [ResponseWriter.Write, httpError, ResponseWriter.Set,
        ResponseWriter.wireHeader, hb, if_true, writeHeader_final _ _ _ _ _ st h1 h2]
    all_goals clear writeHeader_final
    all_goals first
      | exact ⟨_, rfl, hl2⟩
      | (split <;> simp_all [ResponseWriter.wireHeader, ResponseWriter.WriteHeader])

theorem buildResponse_content_type_witness :
    ∃ w1, buildResponse sampleLib ResponseWriter.fresh blockedResponse
        (some ⟨500, "failed"⟩) = some w1 ∧
      List.lookup (sampleLib.canonicalKey "Content-Type") w1.wireHeader =
        some ["application/json; charset=utf-8"] :=
  buildResponse_content_type sampleLib ResponseWriter.fresh blockedResponse
    (some ⟨500, "failed"⟩) rfl (by decide) (by decide) (Or.inr (by decide))
    (Or.inl (by decide))

/-! ## Theorems about the validators -/

theorem validateInputFields_aux (fields : FieldMap) (data : Option Body) :
    (ValidateInputFields fields data = none ↔
      ∀ p ∈ fields, containsField data p.1 = p.2) ∧
    (∀ e, ValidateInputFields fields data = some e →
      e.Code = 400 ∧
      ∃ key shouldContain, (key, shouldContain) ∈ fields ∧
        containsField data key ≠ shouldContain ∧
        e.Message =
          if shouldContain then "Input must contain \x27" ++ key ++ "\x27 field."
          else "Input cannot contain \x27" ++ key ++ "\x27 field.") := by
  induction fields with
  | nil => simp [ValidateInputFields]
  | cons p rest ih =>
    obtain ⟨key, flag⟩ := p
    obtain ⟨ih1, ih2⟩ := ih
    by_cases hk : containsField data key = flag
    · have hstep : ValidateInputFields ((key, flag) :: rest) data =
          ValidateInputFields rest data := by
        simp [ValidateInputFields, hk]
      rw [hstep]
      constructor
      · rw [ih1]
        simp [hk]
      · intro e he
        obtain ⟨hc, k, b, hmem, hne, hmsg⟩ := ih2 e he
        exact ⟨hc, k, b, List.mem_cons_of_mem _ hmem, hne, hmsg⟩
    · constructor
      · constructor
        · intro h
          cases flag <;> simp [ValidateInputFields, hk] at h
        · intro h
          exact absurd (h (key, flag) (List.mem_cons_self _ _)) hk
      · intro e he
        cases flag with
        | true =>
          have hcf : containsField data key = false := by simpa using hk
          have hv : ValidateInputFields ((key, true) :: rest) data =
              some ⟨StatusBadRequest, "Input must contain \x27" ++ key ++ "\x27 field."⟩ := by
            simp [ValidateInputFields, hcf]
          rw [hv] at he
          rw [← Option.some.inj he]
          exact ⟨rfl, key, true, List.mem_cons_self _ _, hk, rfl⟩
        | false =>
          have hcf : containsField data key = true := by simpa using hk
          have hv : ValidateInputFields ((key, false) :: rest) data =
              some ⟨StatusBadRequest, "Input cannot contain \x27" ++ key ++ "\x27 field."⟩ := by
            simp [ValidateInputFields, hcf]
          rw [hv] at he
          rw [← Option.some.inj he]
          exact ⟨rfl, key, false, List.mem_cons_self _ _, hk, rfl⟩

/-- C18: `ValidateInputFields` returns no error exactly when every entry of the
field map agrees with the data (the key is in the data exactly when its flag
is true); an error it returns has status code 400 and its message names a key
of the field map that disagrees, with "must contain" when the flag is true
and "cannot contain" when it is false. -/
theorem validateInputFields_spec (fields : FieldMap) (data : Option Body) :
    (ValidateInputFields fields data = none ↔
      ∀ p ∈ fields, containsField data p.1 = p.2) ∧
    (∀ e, ValidateInputFields fields data = some e →
      e.Code = 400 ∧
      ∃ key shouldContain, (key, shouldContain) ∈ fields ∧
        containsField data key ≠ shouldContain ∧
        e.Message =
          if shouldContain then "Input must contain \x27" ++ key ++ "\x27 field."
          else "Input cannot contain \x27" ++ key ++ "\x27 field.") :=
  validateInputFields_aux fields data

theorem unexpectedFields_none (fields : FieldMap) (entries : Body) (err : Option Error) :
    unexpectedFields fields entries err = none ↔
      err = none ∧ ∀ p ∈ entries, containsKeyInFields fields p.1 = true := by
  induction entries generalizing err with
  | nil => simp [unexpectedFields]
  | cons p rest ih =>
    obtain ⟨key, v⟩ := p
    by_cases hk : containsKeyInFields fields key = true
    · simp [unexpectedFields, hk, ih]
    · simp [unexpectedFields, hk, ih]

theorem unexpectedFields_code (fields : FieldMap) (entries : Body) (err : Option Error)
    (herr : ∀ e0, err = some e0 → e0.Code = 400) :
    ∀ e, unexpectedFields fields entries err = some e → e.Code = 400 := by
  induction entries generalizing err with
  | nil =>
    intro e he
    exact herr e he
  | cons p rest ih =>
    obtain ⟨key, v⟩ := p
    intro e he
    by_cases hk : containsKeyInFields fields key = true
    · simp only [unexpectedFields, hk, Bool.not_true, Bool.false_eq_true, if_false] at he
      exact ih err herr e he
    · simp only [unexpectedFields, hk, Bool.not_eq_true, Bool.not_false, if_true] at he
      refine ih _ ?_ e he
      intro e0 h0
      rw [← Option.some.inj h0]
      rfl

theorem containsField_iff (data : Option Body) (key : String) :
    containsField data key = true ↔ ∃ p ∈ data.getD [], p.1 = key := by
  cases data with
  | none => simp [containsField]
  | some entries => simp [containsField]

theorem containsKeyInFields_iff (fields : FieldMap) (key : String) :
    containsKeyInFields fields key = true ↔ ∃ b, (key, b) ∈ fields := by
  simp only [containsKeyInFields, List.any_eq_true, beq_iff_eq, Prod.exists]
  constructor
  · rintro ⟨k, b, hmem, hk⟩
    exact ⟨b, hk ▸ hmem⟩
  · rintro ⟨b, hmem⟩
    exact ⟨key, b, hmem, rfl⟩

theorem fieldMap_flag_unique (fields : FieldMap) (hnodup : (fields.map Prod.fst).Nodup)
    (key : String) (b1 b2 : Bool) (h1 : (key, b1) ∈ fields) (h2 : (key, b2) ∈ fields) :
    b1 = b2 := by
  induction fields with
  | nil => simp at h1
  | cons p rest ih =>
    obtain ⟨k, b⟩ := p
    simp only [List.map_cons, List.nodup_cons, List.mem_map, Prod.exists, exists_and_right,
      exists_eq_right, not_exists] at hnodup
    obtain ⟨hnot, hrest⟩ := hnodup
    simp only [List.mem_cons, Prod.mk.injEq] at h1 h2
    rcases h1 with ⟨hk1, hb1⟩ | h1 <;> rcases h2 with ⟨hk2, hb2⟩ | h2
    · rw [hb1, hb2]
    · exact absurd (hk1 ▸ h2) (hnot b2)
    · exact absurd (hk2 ▸ h1) (hnot b1)
    · exact ih hrest h1 h2

/-- C19: for a field map (each key bound once), `ValidateExactInputFields`
returns no error exactly when the keys of the data are the keys that the field
map binds to true, which is when `ValidateInputFields` returns no error and
every key of the data is a key of the field map; an error it returns has
status code 400. -/
theorem validateExactInputFields_spec (fields : FieldMap) (data : Option Body)
    (hnodup : (fields.map Prod.fst).Nodup) :
    (ValidateExactInputFields fields data = none ↔
      ∀ key, containsField data key = true ↔ (key, true) ∈ fields) ∧
    (ValidateExactInputFields fields data = none ↔
      ValidateInputFields fields data = none ∧
        ∀ key, containsField data key = true → containsKeyInFields fields key = true) ∧
    (∀ e, ValidateExactInputFields fields data = some e → e.Code = 400) := by
  obtain ⟨hv1, hv2⟩ := validateInputFields_aux fields data
  have hsecond : ValidateExactInputFields fields data = none ↔
      ValidateInputFields fields data = none ∧
        ∀ key, containsField data key = true → containsKeyInFields fields key = true := by
    unfold ValidateExactInputFields
    cases hvif : ValidateInputFields fields data with
    | some e0 => simp
    | none =>
      simp only [unexpectedFields_none, true_and]
      constructor
      · intro h key hkey
        obtain ⟨p, hp, hpk⟩ := (containsField_iff data key).mp hkey
        rw [← hpk]
        exact h p hp
      · intro h p hp
        exact h p.1 ((containsField_iff data p.1).mpr ⟨p, hp, rfl⟩)
  refine ⟨?_, hsecond, ?_⟩
  · rw [hsecond, hv1]
    constructor
    · rintro ⟨hA, hB⟩ key
      constructor
      · intro hkey
        obtain ⟨b, hb⟩ := (containsKeyInFields_iff fields key).mp (hB key hkey)
        have hflag := hA (key, b) hb
        simp only [hkey] at hflag
        rw [← hflag] at hb
        exact hb
      · intro hmem
        exact hA (key, true) hmem
    · intro h
      constructor
      · rintro ⟨key, b⟩ hmem
        cases b with
        | true => exact (h key).mpr hmem
        | false =>
          cases hc : containsField data key with
          | false => rfl
          | true =>
            have hmem2 := (h key).mp hc
            exact absurd (fieldMap_flag_unique fields hnodup key true false hmem2 hmem)
              (by decide)
      · intro key hkey
        exact (containsKeyInFields_iff fields key).mpr ⟨true, (h key).mp hkey⟩
  · intro e he
    unfold ValidateExactInputFields at he
    cases hvif : ValidateInputFields fields data with
    | some e0 =>
      rw [hvif] at he
      rw [← Option.some.inj he]
      exact (hv2 e0 hvif).1
    | none =>
      rw [hvif] at he
      exact unexpectedFields_code fields (data.getD []) none (fun e0 h0 => by cases h0) e he

theorem validateExactInputFields_spec_witness :
    ValidateExactInputFields sampleFields nameZipBody =
        some ⟨400, "Unexpected field \x27zip\x27."⟩ ∧
      (⟨400, "Unexpected field \x27zip\x27."⟩ : Error).Code = 400 :=
  ⟨by decide,
   (validateExactInputFields_spec sampleFields nameZipBody (by decide)).2.2
      ⟨400, "Unexpected field \x27zip\x27."⟩ (by decide)⟩

/-- C20, evaluated on the code: with `extras` the nil interface both
validators panic at the type assertion instead of returning the error 500
assigned just before; with a field map they return the result of
`ValidateInputFields`, of `ValidateExactInputFields`, on the body of the
request, and the zero request, response and scope as edits. -/
theorem fieldValidators_on_extras {S : Type} (zeroScope scope : S)
    (request response : Message) :
    InputFieldValidator zeroScope scope Extras.nil request response = none ∧
    ExactInputFieldValidator zeroScope scope Extras.nil request response = none ∧
    (∀ fields, InputFieldValidator zeroScope scope (Extras.fieldMap fields) request response =
      some { editedRequest := Message.zero, editedResponse := Message.zero,
             editedRequestScope := zeroScope,
             err := ValidateInputFields fields request.Body }) ∧
    (∀ fields,
      ExactInputFieldValidator zeroScope scope (Extras.fieldMap fields) request response =
        some { editedRequest := Message.zero, editedResponse := Message.zero,
               editedRequestScope := zeroScope,
               err := ValidateExactInputFields fields request.Body }) :=
  ⟨rfl, rfl, fun _ => rfl, fun _ => rfl⟩

/-! ## What the handler executes

The theorems of this section name the results of the calls into the
environment by equations on `env.ExecuteInterceptors`, `env.ExecuteFunction`
and `env.HandleRequest` themselves, and state where those results go: into
the outside state, into the next call and into `buildResponse`. -/

/-- C5: when the request parses, let `a` be the result of running the
AFTER_EXEC phase of the environment on the request, response, scope and
outside state as they stand after the BEFORE_EXEC branch. The handler ends
in the outside state that this run leaves; its last call is `buildResponse`
and the writer is `buildResponse` applied to the response (the phase's when
not empty) and to the error of `a`, exactly: with no error in `a` the error
is nil. The error left by the BEFORE_EXEC phase or by the custom or generic
handler has no influence on anything the handler does from there on. -/
theorem buildResponse_gets_after_error {S W : Type} (env : Env S W) (lib : Lib)
    (w : ResponseWriter) (r : Request) (σ : W) (rw : RequestWrapper)
    (a : PhaseResult S × W) (response : Message)
    (hparse : parseRequest lib r = some (rw, none))
    (ha : a = env.ExecuteInterceptors (dispatch env rw σ).request.Res
      (dispatch env rw σ).request.Command InterceptorType.AFTER_EXEC
      (if !env.ScopeIsEmpty (dispatch env rw σ).editedRequestScope
        then (dispatch env rw σ).editedRequestScope else (dispatch env rw σ).requestScope)
      (dispatch env rw σ).request (dispatch env rw σ).response (dispatch env rw σ).world)
    (hresponse : response =
      if !a.1.editedResponse.IsEmpty then a.1.editedResponse
      else (dispatch env rw σ).response) :
    (handler env lib w r σ).calls.getLast? = some (Call.buildResponse response a.1.err) ∧
    (∀ response1 e, Call.buildResponse response1 e ∈ (handler env lib w r σ).calls →
      e = a.1.err) ∧
    (handler env lib w r σ).writer = buildResponse lib w response a.1.err ∧
    (handler env lib w r σ).world = a.2 ∧
    (a.1.err = none → (handler env lib w r σ).writer = buildResponse lib w response none) ∧
    (∀ e0, finish env lib w { dispatch env rw σ with err := e0 } =
      finish env lib w (dispatch env rw σ)) := by
  have hfin : handler env lib w r σ = finish env lib w (dispatch env rw σ) := by
    simp only [handler, hparse]
  have ha2 : afterPhase env (dispatch env rw σ) = a := by
    rw [ha]
    rfl
  have hwriter : (handler env lib w r σ).writer = buildResponse lib w response a.1.err := by
    rw [hfin, hresponse]
    simp only [finish, ha2]
  refine ⟨?_, ?_, hwriter, ?_, ?_, ?_⟩
  · rw [hfin, hresponse]
    simp [finish, ha2]
  · intro response1 e hmem
    rw [hfin] at hmem
    simp only [finish, ha2, List.mem_append, List.mem_cons,
      List.mem_singleton, Call.buildResponse.injEq, reduceCtorEq, false_or, List.not_mem_nil,
      or_false] at hmem
    rcases hmem with hmem | hmem
    · exact absurd hmem (dispatch_calls_not_buildResponse env rw σ response1 e)
    · exact hmem.2
  · rw [hfin]
    simp only [finish, ha2]
  · intro hnone
    rw [hwriter, hnone]
  · intro e0
    rfl

theorem buildResponse_gets_after_error_witness :
    (handler (tracingEnv failingRegistry (fun _ => false)) sampleLib ResponseWriter.fresh
        postWidgets []).calls.getLast? =
      some (Call.buildResponse Message.zero (some ⟨503, "Unavailable"⟩)) ∧
    (handler (tracingEnv failingRegistry (fun _ => false)) sampleLib ResponseWriter.fresh
        postWidgets []).writer =
      some { header := [("Content-Type", ["application/json; charset=utf-8"])],
             wroteHeader := true, status := 503,
             sentHeader := [("Content-Type", ["application/json; charset=utf-8"])],
             body := [Chunk.text "code,message"] } ∧
    (handler (tracingEnv failingRegistry (fun _ => false)) sampleLib ResponseWriter.fresh
        postWidgets []).world = ["before", "after"] :=
  match buildResponse_gets_after_error (tracingEnv failingRegistry (fun _ => false))
      sampleLib ResponseWriter.fresh postWidgets []
      { RequestWrapper.zero with
        Message := { Message.zero with
          Res := "/widgets", Command := "post", Headers := some [],
          Parameters := some [] } }
      ({ editedRequest := Message.zero, editedResponse := Message.zero,
         editedRequestScope := 0, err := some ⟨503, "Unavailable"⟩ }, ["before", "after"])
      Message.zero (by decide) rfl rfl with
  | ⟨h1, _, h3, h4, _, _⟩ => ⟨h1, h3.trans (by decide), h4⟩

/-- C7: when the request parses and the BEFORE_EXEC phase of the environment
returns `b` with an empty response and no error, let `request` and `scope`
be the parsed request and the initial scope with the non-empty edits of `b`
applied, and `h` the result of the custom function handler of the environment
on them if `ContainsHandler` holds for `request.Res`, of the generic handler
otherwise, each run in the outside state that the phase left. Exactly one
handler call is made, that one, on `request` and `scope`; what it returns is
what the handler goes on with: the AFTER_EXEC phase runs on `request`, on the
response of `h`, on the scope of `h` when not empty and in the outside state
of `h`, and its result `a` gives the final outside state and what
`buildResponse` writes. -/
theorem dispatch_invokes_one_handler {S W : Type} (env : Env S W) (lib : Lib)
    (w : ResponseWriter) (r : Request) (σ : W) (rw : RequestWrapper)
    (b : PhaseResult S × W) (request : Message) (scope : S) (h : ExecResult S × W)
    (a : PhaseResult S × W)
    (hparse : parseRequest lib r = some (rw, none))
    (hb : b = env.ExecuteInterceptors rw.Message.Res rw.Message.Command
      InterceptorType.BEFORE_EXEC (env.Init σ).1 rw.Message Message.zero (env.Init σ).2)
    (hresp : b.1.editedResponse.IsEmpty = true)
    (herr : b.1.err = none)
    (hrequest : request = if !b.1.editedRequest.IsEmpty then b.1.editedRequest else rw.Message)
    (hscope : scope =
      if !env.ScopeIsEmpty b.1.editedRequestScope then b.1.editedRequestScope
      else (env.Init σ).1)
    (hh : h = if env.ContainsHandler request.Res b.2 then env.ExecuteFunction request scope b.2
      else env.HandleRequest request scope b.2)
    (ha : a = env.ExecuteInterceptors request.Res request.Command InterceptorType.AFTER_EXEC
      (if !env.ScopeIsEmpty h.1.editedRequestScope then h.1.editedRequestScope else scope)
      request h.1.response h.2) :
    (handler env lib w r σ).calls.filter Call.isHandler =
      [if env.ContainsHandler request.Res b.2 then Call.executeFunction request scope
        else Call.handleRequest request scope] ∧
    (handler env lib w r σ).world = a.2 ∧
    (handler env lib w r σ).writer =
      buildResponse lib w
        (if !a.1.editedResponse.IsEmpty then a.1.editedResponse else h.1.response) a.1.err := by
  have hb2 : beforePhase env rw σ = b := by
    rw [hb]
    rfl
  have hfin : handler env lib w r σ = finish env lib w (dispatch env rw σ) := by
    simp only [handler, hparse]
  rw [hfin]
  by_cases hc : env.ContainsHandler request.Res b.2 = true
  · have hd : dispatch env rw σ =
        { request := request, response := (env.ExecuteFunction request scope b.2).1.response,
          requestScope := scope,
          editedRequestScope := (env.ExecuteFunction request scope b.2).1.editedRequestScope,
          err := (env.ExecuteFunction request scope b.2).1.err,
          world := (env.ExecuteFunction request scope b.2).2,
          calls := [Call.interceptors InterceptorType.BEFORE_EXEC rw.Message.Res
            rw.Message.Command (env.Init σ).1 rw.Message Message.zero,
            Call.executeFunction request scope] } := by
      subst hrequest hscope
      simp only [dispatch, hb2, hresp, herr, hc, Bool.not_true, Bool.false_eq_true, if_false,
        Option.isNone_none, if_true]
    rw [hd, if_pos hc] at *
    subst hh
    subst ha
    simp [finish, afterPhase, afterScope, List.filter, Call.isHandler]
  · have hd : dispatch env rw σ =
        { request := request, response := (env.HandleRequest request scope b.2).1.response,
          requestScope := scope,
          editedRequestScope := (env.HandleRequest request scope b.2).1.editedRequestScope,
          err := (env.HandleRequest request scope b.2).1.err,
          world := (env.HandleRequest request scope b.2).2,
          calls := [Call.interceptors InterceptorType.BEFORE_EXEC rw.Message.Res
            rw.Message.Command (env.Init σ).1 rw.Message Message.zero,
            Call.handleRequest request scope] } := by
      subst hrequest hscope
      simp only [dispatch, hb2, hresp, herr, hc, Bool.not_true, Bool.false_eq_true, if_false,
        Option.isNone_none, if_true]
    rw [hd, if_neg hc] at *
    subst hh
    subst ha
    simp [finish, afterPhase, afterScope, List.filter, Call.isHandler]

theorem dispatch_invokes_one_handler_witness :
    (handler (tracingEnv stampingRegistry (fun res => res == "/widgets")) sampleLib
        ResponseWriter.fresh postWidgets []).calls.filter Call.isHandler =
      [Call.executeFunction
        { Message.zero with
          Res := "/widgets", Command := "post", Headers := some [], Parameters := some [] }
        0] ∧
    (handler (tracingEnv stampingRegistry (fun res => res == "/widgets")) sampleLib
        ResponseWriter.fresh postWidgets []).world = ["before", "custom", "after"] ∧
    (handler (tracingEnv stampingRegistry (fun res => res == "/widgets")) sampleLib
        ResponseWriter.fresh postWidgets []).writer =
      some { header := [("Content-Type", ["application/json; charset=utf-8"])],
             wroteHeader := true, status := 202,
             sentHeader := [("Content-Type", ["application/json; charset=utf-8"])],
             body := [] } :=
  match dispatch_invokes_one_handler (tracingEnv stampingRegistry (fun res => res == "/widgets"))
      sampleLib ResponseWriter.fresh postWidgets []
      { RequestWrapper.zero with
        Message := { Message.zero with
          Res := "/widgets", Command := "post", Headers := some [],
          Parameters := some [] } }
      ({ editedRequest := Message.zero, editedResponse := Message.zero,
         editedRequestScope := 0, err := none }, ["before"])
      { Message.zero with
        Res := "/widgets", Command := "post", Headers := some [], Parameters := some [] }
      0
      ({ response := { Message.zero with Status := 200 }, editedRequestScope := 0,
         err := none }, ["before", "custom"])
      ({ editedRequest := Message.zero,
         editedResponse := { Message.zero with Status := 202 },
         editedRequestScope := 7, err := none }, ["before", "custom", "after"])
      (by decide) rfl rfl rfl rfl rfl rfl rfl with
  | ⟨h1, h2, h3⟩ => ⟨h1, h2, h3.trans (by decide)⟩

/-- C16: when the request parses and the BEFORE_EXEC phase of the environment
returns `b`, the calls of the handler are, in this order and no others: the
BEFORE_EXEC phase; a handler, when `b` has an empty response and no error;
the AFTER_EXEC phase, once; the FINAL spawn; `buildResponse`. The AFTER_EXEC
phase of the environment is run on the request, response, scope and outside
state as they stand: without a handler call on the parsed request, the
response of `b` (the empty one when `b` has an error instead) and the outside
state `b` left; after a handler call on the request handed to the handler,
the handler's response and the outside state the handler left; the scope is
the latest non-empty scope edit, else the scope before it. Its result `a` is
what the handler goes on with: the outside state of `a` is the final one, the
FINAL spawn and `buildResponse` get the response of `a` when not empty, and
`buildResponse` the error of `a`. -/
theorem after_phase_runs_once {S W : Type} (env : Env S W) (lib : Lib)
    (w : ResponseWriter) (r : Request) (σ : W) (rw : RequestWrapper)
    (b : PhaseResult S × W)
    (hparse : parseRequest lib r = some (rw, none))
    (hb : b = env.ExecuteInterceptors rw.Message.Res rw.Message.Command
      InterceptorType.BEFORE_EXEC (env.Init σ).1 rw.Message Message.zero (env.Init σ).2) :
    (∀ (response : Message) (a : PhaseResult S × W),
      ((b.1.editedResponse.IsEmpty = false ∧ response = b.1.editedResponse) ∨
        (b.1.editedResponse.IsEmpty = true ∧ b.1.err ≠ none ∧ response = Message.zero)) →
      a = env.ExecuteInterceptors rw.Message.Res rw.Message.Command
        InterceptorType.AFTER_EXEC
        (if !env.ScopeIsEmpty b.1.editedRequestScope then b.1.editedRequestScope
          else (env.Init σ).1)
        rw.Message response b.2 →
      (handler env lib w r σ).calls =
        [Call.interceptors InterceptorType.BEFORE_EXEC rw.Message.Res rw.Message.Command
          (env.Init σ).1 rw.Message Message.zero,
         Call.interceptors InterceptorType.AFTER_EXEC rw.Message.Res rw.Message.Command
          (if !env.ScopeIsEmpty b.1.editedRequestScope then b.1.editedRequestScope
            else (env.Init σ).1)
          rw.Message response,
         Call.spawned InterceptorType.FINAL rw.Message.Res rw.Message.Command
          (if !env.ScopeIsEmpty a.1.editedRequestScope then a.1.editedRequestScope
            else if !env.ScopeIsEmpty b.1.editedRequestScope then b.1.editedRequestScope
            else (env.Init σ).1)
          rw.Message
          (if !a.1.editedResponse.IsEmpty then a.1.editedResponse else response),
         Call.buildResponse
          (if !a.1.editedResponse.IsEmpty then a.1.editedResponse else response) a.1.err] ∧
      (handler env lib w r σ).world = a.2 ∧
      (handler env lib w r σ).writer =
        buildResponse lib w
          (if !a.1.editedResponse.IsEmpty then a.1.editedResponse else response) a.1.err) ∧
    (b.1.editedResponse.IsEmpty = true → b.1.err = none →
      ∀ (request : Message) (scope : S) (h : ExecResult S × W) (a : PhaseResult S × W),
      request = (if !b.1.editedRequest.IsEmpty then b.1.editedRequest else rw.Message) →
      scope = (if !env.ScopeIsEmpty b.1.editedRequestScope then b.1.editedRequestScope
        else (env.Init σ).1) →
      h = (if env.ContainsHandler request.Res b.2 then env.ExecuteFunction request scope b.2
        else env.HandleRequest request scope b.2) →
      a = env.ExecuteInterceptors request.Res request.Command InterceptorType.AFTER_EXEC
        (if !env.ScopeIsEmpty h.1.editedRequestScope then h.1.editedRequestScope else scope)
        request h.1.response h.2 →
      (handler env lib w r σ).calls =
        [Call.interceptors InterceptorType.BEFORE_EXEC rw.Message.Res rw.Message.Command
          (env.Init σ).1 rw.Message Message.zero,
         if env.ContainsHandler request.Res b.2 then Call.executeFunction request scope
          else Call.handleRequest request scope,
         Call.interceptors InterceptorType.AFTER_EXEC request.Res request.Command
          (if !env.ScopeIsEmpty h.1.editedRequestScope then h.1.editedRequestScope else scope)
          request h.1.response,
         Call.spawned InterceptorType.FINAL request.Res request.Command
          (if !env.ScopeIsEmpty a.1.editedRequestScope then a.1.editedRequestScope
            else if !env.ScopeIsEmpty h.1.editedRequestScope then h.1.editedRequestScope
            else scope)
          request
          (if !a.1.editedResponse.IsEmpty then a.1.editedResponse else h.1.response),
         Call.buildResponse
          (if !a.1.editedResponse.IsEmpty then a.1.editedResponse else h.1.response)
          a.1.err] ∧
      (handler env lib w r σ).world = a.2 ∧
      (handler env lib w r σ).writer =
        buildResponse lib w
          (if !a.1.editedResponse.IsEmpty then a.1.editedResponse else h.1.response)
          a.1.err) := by
  have hb2 : beforePhase env rw σ = b := by
    rw [hb]
    rfl
  have hfin : handler env lib w r σ = finish env lib w (dispatch env rw σ) := by
    simp only [handler, hparse]
  rw [hfin]
  constructor
  · intro response a hskip ha
    have hd : dispatch env rw σ =
        { request := rw.Message, response := response, requestScope := (env.Init σ).1,
          editedRequestScope := b.1.editedRequestScope, err := b.1.err, world := b.2,
          calls := [Call.interceptors InterceptorType.BEFORE_EXEC rw.Message.Res
            rw.Message.Command (env.Init σ).1 rw.Message Message.zero] } := by
      rcases hskip with ⟨hresp, hr⟩ | ⟨hresp, herr, hr⟩
      · subst hr
        simp only [dispatch, hb2, hresp, Bool.not_false, if_true]
      · subst hr
        have hsome : b.1.err.isNone = false := by
          cases hv : b.1.err with
          | none => exact absurd hv herr
          | some e => rfl
        simp only [dispatch, hb2, hresp, hsome, Bool.not_true, Bool.false_eq_true, if_false]
    rw [hd]
    subst ha
    simp [finish, afterPhase, afterScope]
  · intro hresp herr request scope h a hrequest hscope hh ha
    by_cases hc : env.ContainsHandler request.Res b.2 = true
    · have hd : dispatch env rw σ =
          { request := request,
            response := (env.ExecuteFunction request scope b.2).1.response,
            requestScope := scope,
            editedRequestScope := (env.ExecuteFunction request scope b.2).1.editedRequestScope,
            err := (env.ExecuteFunction request scope b.2).1.err,
            world := (env.ExecuteFunction request scope b.2).2,
            calls := [Call.interceptors InterceptorType.BEFORE_EXEC rw.Message.Res
              rw.Message.Command (env.Init σ).1 rw.Message Message.zero,
              Call.executeFunction request scope] } := by
        subst hrequest hscope
        simp only [dispatch, hb2, hresp, herr, hc, Bool.not_true, Bool.false_eq_true, if_false,
          Option.isNone_none, if_true]
      rw [hd, if_pos hc] at *
      subst hh
      subst ha
      simp [finish, afterPhase, afterScope]
    · have hd : dispatch env rw σ =
          { request := request,
            response := (env.HandleRequest request scope b.2).1.response,
            requestScope := scope,
            editedRequestScope := (env.HandleRequest request scope b.2).1.editedRequestScope,
            err := (env.HandleRequest request scope b.2).1.err,
            world := (env.HandleRequest request scope b.2).2,
            calls := [Call.interceptors InterceptorType.BEFORE_EXEC rw.Message.Res
              rw.Message.Command (env.Init σ).1 rw.Message Message.zero,
              Call.handleRequest request scope] } := by
        subst hrequest hscope
        simp only [dispatch, hb2, hresp, herr, hc, Bool.not_true, Bool.false_eq_true, if_false,
          Option.isNone_none, if_true]
      rw [hd, if_neg hc] at *
      subst hh
      subst ha
      simp [finish, afterPhase, afterScope]

theorem after_phase_runs_once_witness :
    ((handler (tracingEnv stampingRegistry (fun _ => false)) sampleLib ResponseWriter.fresh
        postWidgets []).calls =
      [Call.interceptors InterceptorType.BEFORE_EXEC "/widgets" "post" 0
          { Message.zero with
            Res := "/widgets", Command := "post", Headers := some [], Parameters := some [] }
          Message.zero,
       Call.handleRequest
          { Message.zero with
            Res := "/widgets", Command := "post", Headers := some [], Parameters := some [] }
          0,
       Call.interceptors InterceptorType.AFTER_EXEC "/widgets" "post" 0
          { Message.zero with
            Res := "/widgets", Command := "post", Headers := some [], Parameters := some [] }
          { Message.zero with Status := 200 },
       Call.spawned InterceptorType.FINAL "/widgets" "post" 7
          { Message.zero with
            Res := "/widgets", Command := "post", Headers := some [], Parameters := some [] }
          { Message.zero with Status := 202 },
       Call.buildResponse { Message.zero with Status := 202 } none] ∧
      (handler (tracingEnv stampingRegistry (fun _ => false)) sampleLib ResponseWriter.fresh
        postWidgets []).world = ["before", "generic", "after"]) ∧
    ((handler (tracingEnv blockingStampingRegistry (fun _ => true)) sampleLib
        ResponseWriter.fresh postWidgets []).world = ["before", "after"] ∧
      (handler (tracingEnv blockingStampingRegistry (fun _ => true)) sampleLib
        ResponseWriter.fresh postWidgets []).writer =
        some { header := [("Content-Type", ["application/json; charset=utf-8"])],
               wroteHeader := true, status := 405,
               sentHeader := [("Content-Type", ["application/json; charset=utf-8"])],
               body := [Chunk.text "reason"] }) :=
  ⟨match (after_phase_runs_once (tracingEnv stampingRegistry (fun _ => false)) sampleLib
      ResponseWriter.fresh postWidgets []
      { RequestWrapper.zero with
        Message := { Message.zero with
          Res := "/widgets", Command := "post", Headers := some [],
          Parameters := some [] } }
      ({ editedRequest := Message.zero, editedResponse := Message.zero,
         editedRequestScope := 0, err := none }, ["before"])
      (by decide) rfl).2 rfl rfl
      { Message.zero with
        Res := "/widgets", Command := "post", Headers := some [], Parameters := some [] }
      0
      ({ response := { Message.zero with Status := 200 }, editedRequestScope := 0,
         err := none }, ["before", "generic"])
      ({ editedRequest := Message.zero,
         editedResponse := { Message.zero with Status := 202 },
         editedRequestScope := 7, err := none }, ["before", "generic", "after"])
      rfl rfl rfl rfl with
    | ⟨h1, h2, _⟩ => ⟨h1, h2⟩,
   match (after_phase_runs_once (tracingEnv blockingStampingRegistry (fun _ => true))
      sampleLib ResponseWriter.fresh postWidgets []
      { RequestWrapper.zero with
        Message := { Message.zero with
          Res := "/widgets", Command := "post", Headers := some [],
          Parameters := some [] } }
      ({ editedRequest := Message.zero, editedResponse := blockedResponse,
         editedRequestScope := 0, err := none }, ["before"])
      (by decide) rfl).1 blockedResponse
      ({ editedRequest := Message.zero,
         editedResponse := { blockedResponse with Status := 405 },
         editedRequestScope := 7, err := none }, ["before", "after"])
      (Or.inl ⟨by decide, rfl⟩) rfl with
    | ⟨_, h2, h3⟩ => ⟨h2, h3.trans (by decide)⟩⟩

end Core
